import Mathlib

/-!
# Verification of the work-time-tracker JSON import/reconciliation engine

This file is a shallow embedding, in Lean 4, of the import/reconciliation
subsystem implemented by the `ImportService` class (src/js/integration-test.js),
the `Order`/`Activity` model classes (src/js/models.js) and the
`DataRepository` update operations (src/js/repository.js).

Modelling conventions:

* Parsed JSON documents are embedded as the inductive type `JSValue`
  (object / array / string / number / boolean / null / undefined).
  JSON numbers are modelled as `Int`: the program never performs numeric
  arithmetic on ingested fields, it only inspects them via `typeof`,
  truthiness, `===` and `.length`.
* JavaScript strict equality `===` is modelled by `jsEq`, which is
  structural on primitives and constantly `false` on objects/arrays.
  This is faithful for this program: every object/array value compared by
  the pipeline originates from distinct `JSON.parse` nodes, so reference
  equality between two compared objects never holds.
* The host `Date` constructor is modelled (see `jsDateMs`) by an ISO-8601
  parser covering the timestamp forms the specification admits for
  `createdAt` (`YYYY-MM-DD` and `YYYY-MM-DDTHH:MM[:SS[.mmm]]Z`), computing a
  UTC epoch-millisecond time value; the host is assumed to run in the UTC
  timezone.  Host-specific extra date formats are not modelled; no theorem
  in this file depends on them.
* `jsTrim`/`jsToLower` model the JavaScript `trim`/`toLowerCase` as
  kernel-reducible list computations.
* The persistence medium is out of scope (per the specification): the
  repository state is threaded explicitly as a `Store` value and
  `saveData` is modelled as the identity on that state.
-/

set_option linter.unusedVariables false
set_option maxRecDepth 4000

/-- A parsed JSON value, as manipulated (duck-typed) by the import pipeline.
Numbers are `Int` (see the header: the program never does arithmetic on
ingested fields). `undef` is the JavaScript `undefined` value, which arises
from accessing a missing property. -/
inductive JSValue where
  | null : JSValue
  | undef : JSValue
  | bool : Bool → JSValue
  | num : Int → JSValue
  | str : String → JSValue
  | arr : List JSValue → JSValue
  | obj : List (String × JSValue) → JSValue

/-- JavaScript truthiness: `null`, `undefined`, `false`, `0` and `""` are
falsy; every object and array is truthy. -/
def truthy : JSValue → Bool
  | .null => false
  | .undef => false
  | .bool b => b
  | .num n => n != 0
  | .str s => s ≠ ""
  | .arr _ => true
  | .obj _ => true

/-- The JavaScript `typeof` operator (restricted to the values of `JSValue`;
note `typeof null === "object"` and `typeof [] === "object"`). -/
def typeofStr : JSValue → String
  | .null => "object"
  | .undef => "undefined"
  | .bool _ => "boolean"
  | .num _ => "number"
  | .str _ => "string"
  | .arr _ => "object"
  | .obj _ => "object"

/-- JavaScript property access `v[k]` for a string key: `undefined` when the
property is missing or the value is not an object.  (The only keys the
pipeline reads off arrays are record field names, which are `undefined` on
arrays.) -/
def getProp : JSValue → String → JSValue
  | .obj fields, k =>
      match fields.find? (fun p => p.1 == k) with
      | some p => p.2
      | none => .undef
  | _, _ => (.undef)

/-- The JavaScript `k in v` operator (own-property test on objects). -/
def hasProp : JSValue → String → Bool
  | .obj fields, k => fields.any (fun p => p.1 == k)
  | _, _ => false

/-- `Object.keys` on an object; `[]` otherwise (the program only applies it
to values already checked to be non-array objects). -/
def objKeys : JSValue → List String
  | .obj fields => fields.map (fun p => p.1)
  | _ => []

/-- The JavaScript `.length` property as read by the validators: `some` of
the length for strings and arrays, `none` (i.e. `undefined`) otherwise.  A
comparison `undefined > n` is `false` in JavaScript, which callers model by
matching on `none`. -/
def jsLength : JSValue → Option Nat
  | .str s => some s.length
  | .arr xs => some xs.length
  | _ => none

/-- JavaScript `Array.isArray`. -/
def isArrayJS : JSValue → Bool
  | .arr _ => true
  | _ => false

/-- JavaScript strict equality `===` as used by this program.  Structural on
primitives; constantly `false` between objects/arrays, because every
object/array the pipeline compares originates from a distinct `JSON.parse`
node (reference equality never holds between two such values). -/
def jsEq : JSValue → JSValue → Bool
  | .null, .null => true
  | .undef, .undef => true
  | .bool a, .bool b => a == b
  | .num a, .num b => a == b
  | .str a, .str b => a == b
  | _, _ => false

/-- Rendering of a value inside a template literal (used only to build
error-message text, never inspected structurally by the pipeline). -/
def jsDisplay : JSValue → String
  | .null => "null"
  | .undef => "undefined"
  | .bool b => if b then "true" else "false"
  | .num n => toString n
  | .str s => s
  | .arr _ => "[array]"
  | .obj _ => "[object Object]"

/-! ## Date model

`jsDateMs` models `new Date(v).getTime()` (with `none` for `NaN`, i.e. an
Invalid Date) and `jsDateYear` the corresponding `getFullYear()`, for the
ISO-8601 timestamp strings admitted by the specification for `createdAt`.
The host timezone is assumed to be UTC. -/

/-- Number of days from 1970-01-01 to the given civil date (standard
era-based civil-calendar computation; `y ≥ 0` always holds here because the
parser only admits four-digit years). -/
def daysFromCivil (y m d : Int) : Int :=
  let y2 : Int := if m ≤ 2 then y - 1 else y
  let era : Int := y2 / 400
  let yoe : Int := y2 - era * 400
  let mp : Int := (m + 9) % 12
  let doy : Int := (153 * mp + 2) / 5 + d - 1
  let doe : Int := yoe * 365 + yoe / 4 - yoe / 100 + doy
  era * 146097 + doe - 719468

/-- Whether a year is a leap year (proleptic Gregorian, as JavaScript). -/
def isLeapYear (y : Int) : Bool :=
  (y % 4 == 0 && y % 100 != 0) || y % 400 == 0

/-- Days in a month (1–12). -/
def daysInMonth (y m : Int) : Int :=
  if m == 2 then (if isLeapYear y then 29 else 28)
  else if m == 4 || m == 6 || m == 9 || m == 11 then 30
  else 31

/-- Parse a run of decimal digits as a natural number; `none` if any
character is not a digit. -/
def digitsToNat : List Char → Option Nat
  | [] => some 0
  | c :: cs =>
      if c.isDigit then
        match digitsToNat cs with
        | some n => some ((c.toNat - '0'.toNat) * 10 ^ cs.length + n)
        | none => none
      else none

/-- Parse exactly `k` digit characters from the front of `cs`, returning the
value and the rest. -/
def takeDigits (k : Nat) (cs : List Char) : Option (Nat × List Char) :=
  let pre := cs.take k
  if pre.length = k then
    match digitsToNat pre with
    | some n => some (n, cs.drop k)
    | none => none
  else none

/-- Parse the optional time-of-day part of an ISO timestamp:
`""`, or `THH:MM[:SS[.mmm]]Z`.  Returns milliseconds past midnight. -/
def parseTimePart (cs : List Char) : Option Int :=
  match cs with
  | [] => some 0
  | 'T' :: rest =>
      match takeDigits 2 rest with
      | none => none
      | some (hh, r1) =>
          if hh > 23 then none else
          match r1 with
          | ':' :: r2 =>
              match takeDigits 2 r2 with
              | none => none
              | some (mi, r3) =>
                  if mi > 59 then none else
                  let base : Int := (hh : Int) * 3600000 + (mi : Int) * 60000
                  match r3 with
                  | ['Z'] => some base
                  | ':' :: r4 =>
                      match takeDigits 2 r4 with
                      | none => none
                      | some (ss, r5) =>
                          if ss > 59 then none else
                          let base2 : Int := base + (ss : Int) * 1000
                          match r5 with
                          | ['Z'] => some base2
                          | '.' :: r6 =>
                              match takeDigits 3 r6 with
                              | none => none
                              | some (ms, r7) =>
                                  match r7 with
                                  | ['Z'] => some (base2 + (ms : Int))
                                  | _ => none
                          | _ => none
                  | _ => none
          | _ => none
  | _ => none

/-- Modelled from the spec: the host `Date` parser (`new Date(s)`),
restricted to the ISO-8601 `createdAt` forms of the specification
(`YYYY-MM-DD` optionally followed by `THH:MM[:SS[.mmm]]Z`), in a UTC host
timezone.  Returns `(epoch milliseconds, year)`, or `none` for an Invalid
Date. -/
def isoParse (s : String) : Option (Int × Int) :=
  let cs := s.toList
  match takeDigits 4 cs with
  | none => none
  | some (y, r1) =>
      match r1 with
      | '-' :: r2 =>
          match takeDigits 2 r2 with
          | none => none
          | some (mo, r3) =>
              if mo < 1 || mo > 12 then none else
              match r3 with
              | '-' :: r4 =>
                  match takeDigits 2 r4 with
                  | none => none
                  | some (d, r5) =>
                      if d < 1 || (d : Int) > daysInMonth (y : Int) (mo : Int) then none
                      else
                        match parseTimePart r5 with
                        | none => none
                        | some t =>
                            some (daysFromCivil (y : Int) (mo : Int) (d : Int) * 86400000 + t,
                                  (y : Int))
              | _ => none
      | _ => none

/-- Time value of `new Date(v)` for a `JSValue`: strings via `isoParse`,
numbers are epoch milliseconds, booleans coerce to 0/1; other values give an
Invalid Date (`none`). -/
def jsDateMs : JSValue → Option Int
  | .str s => (isoParse s).map (fun p => p.1)
  | .num n => some n
  | .bool b => some (if b then 1 else 0)
  | _ => none

/-- Year (`getFullYear`, UTC host) of `new Date(s)` for a string. -/
def jsDateYearOfString (s : String) : Option Int :=
  (isoParse s).map (fun p => p.2)

/-- Whether a character is a control character in the sense of the
validator's regex `/[\x00-\x1F\x7F]/`. -/
def isCtrlChar (c : Char) : Bool :=
  c.toNat ≤ 0x1F || c.toNat == 0x7F

/-- JavaScript `/[\x00-\x1F\x7F]/.test(s)`. -/
def hasCtrlChar (s : String) : Bool :=
  s.toList.any isCtrlChar

/-- A character of the JavaScript `trim` whitespace set (WhiteSpace and
LineTerminator code points). -/
def isJsWhitespace (c : Char) : Bool :=
  c.toNat = 0x20 || c.toNat = 0x9 || c.toNat = 0xA || c.toNat = 0xB || c.toNat = 0xC ||
  c.toNat = 0xD || c.toNat = 0xA0 || c.toNat = 0x2028 || c.toNat = 0x2029 || c.toNat = 0xFEFF

/-- JavaScript `String.prototype.trim`, as a reducible list computation
(`String.trim` of the Lean runtime is an extern function the kernel cannot
evaluate). -/
def jsTrim (s : String) : String :=
  String.mk (((s.data.dropWhile isJsWhitespace).reverse.dropWhile isJsWhitespace).reverse)

/-- JavaScript `String.prototype.toLowerCase` (ASCII range; the data this
program lowercases is compared case-insensitively only for duplicate-name
warnings). -/
def jsToLower (s : String) : String :=
  String.mk (s.data.map Char.toLower)

/-! ## JSON.stringify model (used only for the size constraints) -/

/-- Hex digit character (lower case). -/
def hexDigitChar (n : Nat) : Char :=
  if n < 10 then Char.ofNat ('0'.toNat + n) else Char.ofNat ('a'.toNat + n - 10)

/-- Four-digit hexadecimal rendering (for `\u00XX` escapes). -/
def hex4 (n : Nat) : String :=
  String.mk [hexDigitChar (n / 4096 % 16), hexDigitChar (n / 256 % 16),
             hexDigitChar (n / 16 % 16), hexDigitChar (n % 16)]

/-- JSON string escaping of one character, as `JSON.stringify` performs it. -/
def jsonEscapeChar (c : Char) : String :=
  if c = '"' then "\\\""
  else if c = '\\' then "\\\\"
  else if c = '\n' then "\\n"
  else if c = '\r' then "\\r"
  else if c = '\t' then "\\t"
  else if c.toNat = 8 then "\\b"
  else if c.toNat = 12 then "\\f"
  else if c.toNat < 0x20 then "\\u" ++ hex4 c.toNat
  else String.singleton c

/-- JSON quoting of a string. -/
def jsonQuote (s : String) : String :=
  "\"" ++ String.join (s.toList.map jsonEscapeChar) ++ "\""

mutual

/-- Model of `JSON.stringify` (compact form, no spacing), used by the
pipeline only to measure the serialized size of the document against the
10 MB / 5 MB thresholds.  A top-level `undefined` (which `JSON.stringify`
maps to no string at all) is rendered as "null"; the pipeline only
stringifies values already known to be non-null objects, so that corner is
never reached. -/
def stringifyJS : JSValue → String
  | .null => "null"
  | .undef => "null"
  | .bool b => if b then "true" else "false"
  | .num n => toString n
  | .str s => jsonQuote s
  | .arr xs => "[" ++ String.intercalate "," (stringifyList xs) ++ "]"
  | .obj fs => "\x7b" ++ String.intercalate "," (stringifyFields fs) ++ "\x7d"

/-- Stringify array elements (an `undefined` element renders as "null"). -/
def stringifyList : List JSValue → List String
  | [] => []
  | x :: xs => stringifyJS x :: stringifyList xs

/-- Stringify object fields; properties with `undefined` values are skipped,
as `JSON.stringify` does. -/
def stringifyFields : List (String × JSValue) → List String
  | [] => []
  | (_, .undef) :: fs => stringifyFields fs
  | (k, v) :: fs => (jsonQuote k ++ ":" ++ stringifyJS v) :: stringifyFields fs

end

/-- Modelled from the spec: `formatFileSize` renders a byte count with
floating-point `Math.log`/`toFixed`, which this integer embedding renders by
integer division instead.  The rendered text appears only inside free-text
size warnings above thresholds that no theorem in this file reaches. -/
def formatFileSize (bytes : Nat) : String :=
  if bytes = 0 then "0 Bytes"
  else if bytes ≥ 1073741824 then toString (bytes / 1073741824) ++ " GB"
  else if bytes ≥ 1048576 then toString (bytes / 1048576) ++ " MB"
  else if bytes ≥ 1024 then toString (bytes / 1024) ++ " KB"
  else toString bytes ++ " Bytes"

/-! ## Structural / schema validators (ImportService.validateJSONSchema
and its sub-validators, src/js/integration-test.js lines 2650–3145) -/

/-- Result of a validator that reports only validity and errors. -/
structure CheckResult where
  isValid : Bool
  errors : List String
deriving Repr, DecidableEq

/-- Result of a validator that additionally reports warnings. -/
structure CheckWarnResult where
  isValid : Bool
  errors : List String
  warnings : List String
deriving Repr, DecidableEq

/-- ImportService.validateRootStructure: the root must be a non-null,
non-array object with at least one key. -/
def validateRootStructure : JSValue → CheckResult
  | .null => ⟨false, ["データが null または undefined です"]⟩
  | .undef => ⟨false, ["データが null または undefined です"]⟩
  | .bool _ => ⟨false, ["ルートオブジェクトの型が無効です。期待値: object, 実際: boolean"]⟩
  | .num _ => ⟨false, ["ルートオブジェクトの型が無効です。期待値: object, 実際: number"]⟩
  | .str _ => ⟨false, ["ルートオブジェクトの型が無効です。期待値: object, 実際: string"]⟩
  | .arr _ => ⟨false, ["ルートは配列ではなくオブジェクトである必要があります"]⟩
  | .obj fields =>
      if fields.isEmpty then ⟨false, ["空のオブジェクトです。データが含まれていません"]⟩
      else ⟨true, []⟩

/-- Top-level property allow-list (required `orders` plus the optional
`version`, `metadata`, `exportedAt`). -/
def allowedTopLevelProps : List String := ["orders", "version", "metadata", "exportedAt"]

/-- ImportService.validateRequiredProperties: `orders` must exist and be an
array; unknown top-level keys produce a warning only.  (The source's
follow-up `data[prop] === null` check is unreachable: `null` already fails
`Array.isArray`.) -/
def validateRequiredProperties (data : JSValue) : CheckWarnResult :=
  let base : CheckWarnResult :=
    if ¬ hasProp data "orders" then
      ⟨false, ["必須プロパティ「orders」が見つかりません"], []⟩
    else if ¬ isArrayJS (getProp data "orders") then
      ⟨false, ["プロパティ「orders」は配列である必要があります。実際の型: " ++
               typeofStr (getProp data "orders")], []⟩
    else ⟨true, [], []⟩
  let unexpected := (objKeys data).filter (fun k => ¬ allowedTopLevelProps.contains k)
  if unexpected.isEmpty then base
  else { base with
         warnings := ["予期しないプロパティが含まれています: " ++
                      String.intercalate ", " unexpected] }

/-- Required-field type checks shared by the schema type validators: for
each `(field, expectedType)`, the field must exist and have the expected
`typeof`. -/
def fieldTypeErrors (item : JSValue) (pfx : String) : List (String × String) → List String
  | [] => []
  | (field, expectedType) :: rest =>
      (if ¬ hasProp item field then
        [pfx ++ ": 必須フィールド「" ++ field ++ "」が見つかりません"]
      else if typeofStr (getProp item field) ≠ expectedType then
        [pfx ++ "." ++ field ++ ": " ++ expectedType ++
         "型である必要があります。実際の型: " ++ typeofStr (getProp item field)]
      else []) ++ fieldTypeErrors item pfx rest

/-- ImportService.validateActivitySchemaTypes: with a parent prefix (nested
form) only `id`/`name` are required; in flat form `orderId`/`createdAt` as
well. -/
def validateActivitySchemaTypes (activity : JSValue) (index : Nat) (parentPfx : String) :
    CheckResult :=
  let pfx := if parentPfx ≠ "" then parentPfx ++ ".activities[" ++ toString index ++ "]"
             else "アクティビティ[" ++ toString index ++ "]"
  if ¬ truthy activity || typeofStr activity ≠ "object" || isArrayJS activity then
    ⟨false, [pfx ++ ": オブジェクトである必要があります。実際の型: " ++ typeofStr activity]⟩
  else
    let requiredFields :=
      if parentPfx ≠ "" then [("id", "string"), ("name", "string")]
      else [("id", "string"), ("name", "string"), ("orderId", "string"), ("createdAt", "string")]
    let errs := fieldTypeErrors activity pfx requiredFields
    ⟨errs.isEmpty, errs⟩

/-- Per-activity loop of validateNestedOrderSchemaTypes. -/
def nestedActivitiesTypeErrors (pfx : String) : Nat → List JSValue → List String
  | _, [] => []
  | i, a :: rest =>
      (validateActivitySchemaTypes a i pfx).errors ++ nestedActivitiesTypeErrors pfx (i + 1) rest

/-- ImportService.validateNestedOrderSchemaTypes: an order must be a
non-array object with string `id`/`name`; an optional `activities` field
must be an array of schema-valid activities. -/
def validateNestedOrderSchemaTypes (order : JSValue) (index : Nat) : CheckResult :=
  let pfx := "オーダー[" ++ toString index ++ "]"
  if ¬ truthy order || typeofStr order ≠ "object" || isArrayJS order then
    ⟨false, [pfx ++ ": オブジェクトである必要があります。実際の型: " ++ typeofStr order]⟩
  else
    let fieldErrs := fieldTypeErrors order pfx [("id", "string"), ("name", "string")]
    let actErrs :=
      if hasProp order "activities" then
        match getProp order "activities" with
        | .arr acts => nestedActivitiesTypeErrors pfx 0 acts
        | v => [pfx ++ ".activities: 配列である必要があります。実際の型: " ++ typeofStr v]
      else []
    let errs := fieldErrs ++ actErrs
    ⟨errs.isEmpty, errs⟩

/-- Per-order loop of validateSchemaDataTypes. -/
def nestedOrdersTypeErrors : Nat → List JSValue → List String
  | _, [] => []
  | i, o :: rest =>
      (validateNestedOrderSchemaTypes o i).errors ++ nestedOrdersTypeErrors (i + 1) rest

/-- ImportService.validateSchemaDataTypes: nested-order element checks plus
optional `version`/`exportedAt` type checks.  (`data.orders &&
Array.isArray(data.orders)` holds exactly when the property is an array,
since arrays are always truthy.) -/
def validateSchemaDataTypes (data : JSValue) : CheckResult :=
  let orderErrs :=
    match getProp data "orders" with
    | .arr os => nestedOrdersTypeErrors 0 os
    | _ => []
  let versionErrs :=
    if hasProp data "version" && typeofStr (getProp data "version") ≠ "string" then
      ["versionフィールドは文字列である必要があります。実際の型: " ++
       typeofStr (getProp data "version")]
    else []
  let exportedAtErrs :=
    if hasProp data "exportedAt" && typeofStr (getProp data "exportedAt") ≠ "string" then
      ["exportedAtフィールドは文字列である必要があります。実際の型: " ++
       typeofStr (getProp data "exportedAt")]
    else []
  let errs := orderErrs ++ versionErrs ++ exportedAtErrs
  ⟨errs.isEmpty, errs⟩

/-- The string-length test `v && v.length > n` as the constraint validator
writes it: a falsy value is skipped, a truthy value without a `length`
property compares as `undefined > n`, which is false. -/
def lengthExceeds (v : JSValue) (n : Nat) : Bool :=
  truthy v &&
    (match jsLength v with
     | some len => len > n
     | none => false)

/-- Per-order loop of validateStringConstraints (`id` ≤ 100, `name` ≤ 200). -/
def orderStringConstraintErrors : Nat → List JSValue → List String
  | _, [] => []
  | i, o :: rest =>
      (if lengthExceeds (getProp o "id") 100 then
        ["オーダー[" ++ toString i ++ "].id: 文字数制限を超えています（最大100文字）"]
      else []) ++
      (if lengthExceeds (getProp o "name") 200 then
        ["オーダー[" ++ toString i ++ "].name: 文字数制限を超えています（最大200文字）"]
      else []) ++
      orderStringConstraintErrors (i + 1) rest

/-- Per-activity loop of validateStringConstraints (`id` ≤ 100, `name` ≤ 200,
`orderId` ≤ 100). -/
def activityStringConstraintErrors : Nat → List JSValue → List String
  | _, [] => []
  | i, a :: rest =>
      (if lengthExceeds (getProp a "id") 100 then
        ["アクティビティ[" ++ toString i ++ "].id: 文字数制限を超えています（最大100文字）"]
      else []) ++
      (if lengthExceeds (getProp a "name") 200 then
        ["アクティビティ[" ++ toString i ++ "].name: 文字数制限を超えています（最大200文字）"]
      else []) ++
      (if lengthExceeds (getProp a "orderId") 100 then
        ["アクティビティ[" ++ toString i ++ "].orderId: 文字数制限を超えています（最大100文字）"]
      else []) ++
      activityStringConstraintErrors (i + 1) rest

/-- ImportService.validateStringConstraints: record-level length limits on
the raw document (`orders`/`activities` arrays, when present). -/
def validateStringConstraints (data : JSValue) : CheckResult :=
  let orderErrs :=
    match getProp data "orders" with
    | .arr os => orderStringConstraintErrors 0 os
    | _ => []
  let actErrs :=
    match getProp data "activities" with
    | .arr as => activityStringConstraintErrors 0 as
    | _ => []
  let errs := orderErrs ++ actErrs
  ⟨errs.isEmpty, errs⟩

/-- The element-count test `data.x ? data.x.length : 0` combined with a
threshold comparison; a truthy non-array gives `undefined`, whose
comparisons are all false (`none` here). -/
def jsCountOrZero (v : JSValue) : Option Nat :=
  if truthy v then jsLength v else some 0

/-- ImportService.validateSchemaConstraints: serialized-size limits
(10 MB fatal / 5 MB warning), element-count limits (orders 10,000/1,000 and
activities 50,000/5,000) and the string-length constraints. -/
def validateSchemaConstraints (data : JSValue) : CheckWarnResult :=
  let dataSize := (stringifyJS data).length
  let sizeErrs :=
    if dataSize > 10485760 then
      ["データサイズが制限を超えています。最大: " ++ formatFileSize 10485760 ++
       ", 実際: " ++ formatFileSize dataSize]
    else []
  let sizeWarns :=
    if dataSize > 10485760 then []
    else if dataSize > 5242880 then
      ["データサイズが大きいため、処理に時間がかかる可能性があります: " ++ formatFileSize dataSize]
    else []
  let orderCountErrs :=
    match jsCountOrZero (getProp data "orders") with
    | some n =>
        if n > 10000 then
          ["オーダー数が制限を超えています。最大: 10,000件, 実際: " ++ toString n ++ "件"]
        else []
    | none => []
  let orderCountWarns :=
    match jsCountOrZero (getProp data "orders") with
    | some n =>
        if n > 10000 then []
        else if n > 1000 then
          ["オーダー数が多いため、処理に時間がかかる可能性があります: " ++ toString n ++ "件"]
        else []
    | none => []
  let actCountErrs :=
    match jsCountOrZero (getProp data "activities") with
    | some n =>
        if n > 50000 then
          ["アクティビティ数が制限を超えています。最大: 50,000件, 実際: " ++ toString n ++ "件"]
        else []
    | none => []
  let actCountWarns :=
    match jsCountOrZero (getProp data "activities") with
    | some n =>
        if n > 50000 then []
        else if n > 5000 then
          ["アクティビティ数が多いため、処理に時間がかかる可能性があります: " ++ toString n ++ "件"]
        else []
    | none => []
  let strRes := validateStringConstraints data
  let errs := sizeErrs ++ orderCountErrs ++ actCountErrs ++
              (if ¬ strRes.isValid then strRes.errors else [])
  ⟨errs.isEmpty, errs, sizeWarns ++ orderCountWarns ++ actCountWarns⟩

/-- The schema version the service supports (ImportService.constructor). -/
def supportedVersion : String := "1.0.0"

/-- ImportService.validateSchemaVersion: warning-only version comparison. -/
def validateSchemaVersion (data : JSValue) : List String :=
  if hasProp data "version" then
    if ¬ jsEq (getProp data "version") (.str supportedVersion) then
      ["スキーマバージョンが異なります。サポート版: " ++ supportedVersion ++
       ", ファイル版: " ++ jsDisplay (getProp data "version")]
    else []
  else ["スキーマバージョンが指定されていません。最新版として処理します"]

/-- ImportService.generatePerformanceWarnings via estimateMemoryUsage
(serialized size × 4 vs 50 MB) and estimateProcessingTime (element count
× 1 ms vs 10 s); a truthy non-array `orders`/`activities` makes the count
`undefined` (`none`), whose comparison is false. -/
def generatePerformanceWarnings (data : JSValue) : List String :=
  let mem := (stringifyJS data).length * 4
  let memWarns :=
    if mem > 52428800 then
      ["推定メモリ使用量が大きいです: " ++ formatFileSize mem]
    else []
  let timeWarns :=
    match jsCountOrZero (getProp data "orders"), jsCountOrZero (getProp data "activities") with
    | some oc, some ac =>
        if oc + ac > 10000 then
          ["処理時間が長くなる可能性があります: 約" ++ toString ((oc + ac + 500) / 1000) ++ "秒"]
        else []
    | _, _ => []
  memWarns ++ timeWarns

/-- Aggregated result of ImportService.validateJSONSchema, with the detailed
sub-results (the source's `validationDetails`). -/
structure SchemaResult where
  isValid : Bool
  errors : List String
  warnings : List String
  structureRes : CheckResult
  propertiesRes : CheckWarnResult
  dataTypesRes : CheckResult
  constraintsRes : CheckWarnResult
deriving Repr, DecidableEq

/-- ImportService.validateJSONSchema: root-structure check (aborting the
remaining schema checks when invalid), then required properties, data
types, constraints, version warnings and performance warnings.  The
unexpected-property warnings of validateRequiredProperties are kept only in
the detailed sub-result, exactly as in the source, which never merges them
into the aggregate. -/
def validateJSONSchema (data : JSValue) : SchemaResult :=
  let structureResult := validateRootStructure data
  if ¬ structureResult.isValid then
    { isValid := false, errors := structureResult.errors, warnings := [],
      structureRes := structureResult, propertiesRes := ⟨true, [], []⟩,
      dataTypesRes := ⟨true, []⟩, constraintsRes := ⟨true, [], []⟩ }
  else
    let propertiesResult := validateRequiredProperties data
    let dataTypesResult := validateSchemaDataTypes data
    let constraintsResult := validateSchemaConstraints data
    let versionWarnings := validateSchemaVersion data
    let perfWarnings := generatePerformanceWarnings data
    { isValid := propertiesResult.isValid && dataTypesResult.isValid && constraintsResult.isValid,
      errors := (if ¬ propertiesResult.isValid then propertiesResult.errors else []) ++
                (if ¬ dataTypesResult.isValid then dataTypesResult.errors else []) ++
                (if ¬ constraintsResult.isValid then constraintsResult.errors else []),
      warnings := constraintsResult.warnings ++ versionWarnings ++ perfWarnings,
      structureRes := structureResult, propertiesRes := propertiesResult,
      dataTypesRes := dataTypesResult, constraintsRes := constraintsResult }

/-! ## Schema Normalizer (ImportService.convertNestedToFlat, lines 4127–4175,
and ImportService.convertFlatToNested, lines 4182–4218) -/

/-- A flattened order record as built by convertNestedToFlat: the function
constructs objects with exactly the fields `id`, `name`, `createdAt` (whose
values are the raw ingested values, or synthesized strings). -/
structure FlatOrderJS where
  id : JSValue
  name : JSValue
  createdAt : JSValue

/-- A flattened activity record as built by convertNestedToFlat: exactly the
fields `id`, `name`, `orderId`, `createdAt`. -/
structure FlatActivityJS where
  id : JSValue
  name : JSValue
  orderId : JSValue
  createdAt : JSValue

/-- The canonical flat document `\x7borders[], activities[]\x7d`. -/
structure FlatDoc where
  orders : List FlatOrderJS
  activities : List FlatActivityJS

instance : Inhabited FlatOrderJS := ⟨⟨.undef, .undef, .undef⟩⟩
instance : Inhabited FlatActivityJS := ⟨⟨.undef, .undef, .undef, .undef⟩⟩

/-- The `!order || typeof order !== 'object'` skip test of the normalizer:
kept are exactly the truthy values of typeof "object" (objects and arrays;
`null` is falsy). -/
def isObjectLike (v : JSValue) : Bool :=
  truthy v && typeofStr v == "object"

/-- One flattened order: each field is `order.f || default` (the raw value if
truthy, otherwise the synthesized default). -/
def flatOrderOf (now : String) (index : Nat) (o : JSValue) : FlatOrderJS :=
  { id := if truthy (getProp o "id") then getProp o "id"
          else .str ("generated_order_" ++ toString index),
    name := if truthy (getProp o "name") then getProp o "name"
            else .str ("オーダー" ++ toString index),
    createdAt := if truthy (getProp o "createdAt") then getProp o "createdAt" else .str now }

/-- One flattened activity; `orderId` is the (possibly synthesized) parent
order id. -/
def flatActivityOf (now : String) (index actIndex : Nat) (parentId : JSValue) (a : JSValue) :
    FlatActivityJS :=
  { id := if truthy (getProp a "id") then getProp a "id"
          else .str ("generated_activity_" ++ toString index ++ "_" ++ toString actIndex),
    name := if truthy (getProp a "name") then getProp a "name"
            else .str ("アクティビティ" ++ toString actIndex),
    orderId := parentId,
    createdAt := if truthy (getProp a "createdAt") then getProp a "createdAt" else .str now }

/-- Embedded-activities loop of the normalizer (the forEach index advances
even across skipped malformed entries). -/
def flattenActivities (now : String) (index : Nat) (parentId : JSValue) :
    Nat → List JSValue → List FlatActivityJS
  | _, [] => []
  | j, a :: rest =>
      if isObjectLike a then
        flatActivityOf now index j parentId a :: flattenActivities now index parentId (j + 1) rest
      else flattenActivities now index parentId (j + 1) rest

/-- Orders loop of the normalizer: malformed entries are skipped (but still
consume an index); each kept order contributes its flattened record and its
embedded activities (when `activities` is an array). -/
def flattenOrdersGo (now : String) : Nat → List JSValue → List FlatOrderJS × List FlatActivityJS
  | _, [] => ([], [])
  | i, o :: rest =>
      let tail := flattenOrdersGo now (i + 1) rest
      if isObjectLike o then
        let fo := flatOrderOf now i o
        let acts :=
          match getProp o "activities" with
          | .arr listA => flattenActivities now i fo.id 0 listA
          | _ => []
        (fo :: tail.1, acts ++ tail.2)
      else tail

/-- ImportService.convertNestedToFlat: reads only the top-level `orders`
property (a missing or non-array `orders` yields the empty flat document)
and flattens each order's embedded activities.  Note that a top-level
`activities` property is never read. -/
def convertNestedToFlat (now : String) (data : JSValue) : FlatDoc :=
  match getProp data "orders" with
  | .arr os =>
      let p := flattenOrdersGo now 0 os
      ⟨p.1, p.2⟩
  | _ => ⟨[], []⟩

/-- A re-nested activity (`id`, `name`, `createdAt`), as rebuilt by
convertFlatToNested. -/
structure NestedOutAct where
  id : JSValue
  name : JSValue
  createdAt : JSValue

/-- A re-nested order with its grouped activities. -/
structure NestedOutOrder where
  id : JSValue
  name : JSValue
  createdAt : JSValue
  activities : List NestedOutAct

/-- ImportService.convertFlatToNested, modelled on the canonical flat
documents the normalizer produces: the source groups activities into a Map
keyed by `orderId` (preserving insertion order within a key) and then
attaches `map.get(order.id) || []` to each order — which is exactly the
in-order sublist of activities whose `orderId` strictly equals the order's
id, i.e. a filter. -/
def convertFlatToNested (f : FlatDoc) : List NestedOutOrder :=
  f.orders.map (fun o =>
    ⟨o.id, o.name, o.createdAt,
     (f.activities.filter (fun a => jsEq a.orderId o.id)).map
       (fun a => ⟨a.id, a.name, a.createdAt⟩)⟩)

/-! ## Type & Constraint Validator (ImportService.validateDataTypes,
validateId, validateName, validateDateTime, lines 3612–3706) -/

/-- The string payload of a value already checked with `typeof v === "string"`. -/
def strOf : JSValue → String
  | .str s => s
  | _ => ""

/-- ImportService.validateId: a non-empty string whose trimmed form is
non-empty, at most 100 characters, and free of control characters. -/
def validateId (id : JSValue) : Bool :=
  if ¬ truthy id || typeofStr id ≠ "string" then false
  else
    let trimmedId := jsTrim (strOf id)
    if trimmedId.length = 0 then false
    else if trimmedId.length > 100 then false
    else if hasCtrlChar trimmedId then false
    else true

/-- ImportService.validateName: a non-empty string whose trimmed form is
non-empty and at most 100 characters.  (The 200-character limit lives in
validateStringConstraints, not here.) -/
def validateName (name : JSValue) : Bool :=
  if ¬ truthy name || typeofStr name ≠ "string" then false
  else
    let trimmedName := jsTrim (strOf name)
    if trimmedName.length = 0 then false
    else if trimmedName.length > 100 then false
    else true

/-- ImportService.validateDateTime: a non-empty string parsing to a valid
date whose year lies in [1900, 2100]. -/
def validateDateTime (dateTime : JSValue) : Bool :=
  if ¬ truthy dateTime || typeofStr dateTime ≠ "string" then false
  else
    match isoParse (strOf dateTime) with
    | none => false
    | some p => 1900 ≤ p.2 && p.2 ≤ 2100

/-- ImportService.validateDataTypes: per-record structure, field and
unexpected-property checks for one order or activity. -/
def validateDataTypes (item : JSValue) (itemType : String) (index : Nat) : List String :=
  let pfx := (if itemType == "order" then "オーダー" else "アクティビティ") ++
             "[" ++ toString index ++ "]"
  if ¬ truthy item || typeofStr item ≠ "object" || isArrayJS item then
    [pfx ++ ": 無効なデータ構造です"]
  else
    (if ¬ validateId (getProp item "id") then
      [pfx ++ ": IDが無効です（空文字、null、または不正な文字が含まれています）"]
    else []) ++
    (if ¬ validateName (getProp item "name") then
      [pfx ++ ": 名前が無効です（空文字、null、または長すぎます）"]
    else []) ++
    (if ¬ validateDateTime (getProp item "createdAt") then
      [pfx ++ ": 作成日時が無効です（不正な日時形式です）"]
    else []) ++
    (if itemType == "activity" then
      (if ¬ validateId (getProp item "orderId") then [pfx ++ ": オーダーIDが無効です"] else [])
    else []) ++
    (let expectedProps :=
       if itemType == "order" then ["id", "name", "createdAt"]
       else ["id", "name", "orderId", "createdAt"]
     let unexpected := (objKeys item).filter (fun k => ¬ expectedProps.contains k)
     if ¬ unexpected.isEmpty then
       [pfx ++ ": 予期しないプロパティが含まれています: " ++ String.intercalate ", " unexpected]
     else [])

/-- The object the validator sees for a flattened order (the normalizer
builds records with exactly these fields in this order). -/
def flatOrderToJS (o : FlatOrderJS) : JSValue :=
  .obj [("id", o.id), ("name", o.name), ("createdAt", o.createdAt)]

/-- The object the validator sees for a flattened activity. -/
def flatActivityToJS (a : FlatActivityJS) : JSValue :=
  .obj [("id", a.id), ("name", a.name), ("orderId", a.orderId), ("createdAt", a.createdAt)]

/-! ## Relationship & Integrity Analyzer
(ImportService.validateDataIntegrity and its sub-analyses, lines 3153–3603)

The analyzer's Map/Set lookups use SameValueZero, modelled by `jsEq`.
The JavaScript methods `trim`/`toLowerCase` throw a `TypeError` when a
record's `name` is a truthy non-string; those analyses are therefore
embedded in `Except String`, the error being caught by
validateDataIntegrity's surrounding `try`/`catch` (the exact host
`TypeError` message text is modelled approximately and never inspected). -/

/-- A duplicate-order-id record (id, both indices, both names). -/
structure DupOrderIdInfo where
  id : JSValue
  indices : Nat × Nat
  names : JSValue × JSValue
  severity : String

/-- A duplicate-activity-id record (id, both indices, both names, both
orderIds). -/
structure DupActivityIdInfo where
  id : JSValue
  indices : Nat × Nat
  names : JSValue × JSValue
  orderIds : JSValue × JSValue
  severity : String

/-- Result of ImportService.analyzeIdDuplicates. -/
structure IdDupResult where
  isValid : Bool
  errors : List String
  orderIds : List DupOrderIdInfo
  activityIds : List DupActivityIdInfo

/-- First-seen-index lookup in an association-list model of the JS Map
(SameValueZero key comparison via `jsEq`). -/
def idMapFind (m : List (JSValue × Nat)) (k : JSValue) : Option Nat :=
  match m.find? (fun p => jsEq p.1 k) with
  | some p => some p.2
  | none => none

/-- Orders loop of analyzeIdDuplicates.  (The source also builds an
`orderIdCounts` map which it never reads afterwards; it has no observable
effect and is not modelled.) -/
def idDupOrdersGo (orders : List FlatOrderJS) :
    Nat → List FlatOrderJS → List (JSValue × Nat) → List DupOrderIdInfo → Bool →
    List DupOrderIdInfo × Bool
  | _, [], _, dups, valid => (dups, valid)
  | i, o :: rest, seen, dups, valid =>
      match idMapFind seen o.id with
      | some existingIndex =>
          let info : DupOrderIdInfo :=
            { id := o.id, indices := (existingIndex, i),
              names := ((orders.getD existingIndex default).name, o.name), severity := "error" }
          idDupOrdersGo orders (i + 1) rest seen (dups ++ [info]) false
      | none => idDupOrdersGo orders (i + 1) rest (seen ++ [(o.id, i)]) dups valid

/-- Activities loop of analyzeIdDuplicates. -/
def idDupActivitiesGo (activities : List FlatActivityJS) :
    Nat → List FlatActivityJS → List (JSValue × Nat) → List DupActivityIdInfo → Bool →
    List DupActivityIdInfo × Bool
  | _, [], _, dups, valid => (dups, valid)
  | i, a :: rest, seen, dups, valid =>
      match idMapFind seen a.id with
      | some existingIndex =>
          let info : DupActivityIdInfo :=
            { id := a.id, indices := (existingIndex, i),
              names := ((activities.getD existingIndex default).name, a.name),
              orderIds := ((activities.getD existingIndex default).orderId, a.orderId),
              severity := "error" }
          idDupActivitiesGo activities (i + 1) rest seen (dups ++ [info]) false
      | none => idDupActivitiesGo activities (i + 1) rest (seen ++ [(a.id, i)]) dups valid

/-- ImportService.analyzeIdDuplicates: record every later occurrence of an
already-seen id (per entity type) and summarize each non-empty duplicate
list as one error message. -/
def analyzeIdDuplicates (orders : List FlatOrderJS) (activities : List FlatActivityJS) :
    IdDupResult :=
  let op := idDupOrdersGo orders 0 orders [] [] true
  let ap := idDupActivitiesGo activities 0 activities [] [] op.2
  let orderErrs :=
    if op.1.isEmpty then []
    else ["重複するオーダーID（" ++ toString op.1.length ++ "件）: " ++
          String.intercalate ", " (op.1.map (fun d => jsDisplay d.id))]
  let actErrs :=
    if ap.1.isEmpty then []
    else ["重複するアクティビティID（" ++ toString ap.1.length ++ "件）: " ++
          String.intercalate ", " (ap.1.map (fun d => jsDisplay d.id))]
  { isValid := ap.2, errors := orderErrs ++ actErrs, orderIds := op.1, activityIds := ap.1 }

/-- An orphaned-activity record (index, id, name, the missing order id). -/
structure OrphanInfo where
  index : Nat
  activityId : JSValue
  activityName : JSValue
  missingOrderId : JSValue
  severity : String

/-- One relationshipDetails entry of analyzeRelationships. -/
structure RelDetail where
  activityIndex : Nat
  activityId : JSValue
  activityName : JSValue
  orderId : JSValue
  isValid : Bool
  issues : List String

/-- Result of ImportService.analyzeRelationships. -/
structure RelResult where
  isValid : Bool
  errors : List String
  orphanedActivities : List OrphanInfo
  totalRelationships : Nat
  validRelationships : Nat
  invalidRelationships : Nat
  orderActivityCounts : List (JSValue × Nat)
  relationshipDetails : List RelDetail
  warnings : List String

/-- `Map.set` on the association-list model (replace the first SameValueZero
match, else append). -/
def countsSet (m : List (JSValue × Nat)) (k : JSValue) (v : Nat) : List (JSValue × Nat) :=
  match m with
  | [] => [(k, v)]
  | p :: rest => if jsEq p.1 k then (k, v) :: rest else p :: countsSet rest k v

/-- `map.get(k) || 0` on the association-list model. -/
def countsGetD (m : List (JSValue × Nat)) (k : JSValue) : Nat :=
  match m.find? (fun p => jsEq p.1 k) with
  | some p => p.2
  | none => 0

/-- Accumulator threaded through the relationship loop. -/
structure RelAccum where
  orphanedActivities : List OrphanInfo
  validRelationships : Nat
  invalidRelationships : Nat
  relationshipDetails : List RelDetail
  orderActivityCounts : List (JSValue × Nat)
  isValid : Bool

/-- One iteration of the relationship loop: an empty (falsy) `orderId` only
counts as an invalid relationship; a non-empty `orderId` matching no batch
order id is recorded as an orphan, invalidates the result and counts as
invalid; otherwise the relationship is valid and the per-order activity
count is bumped. -/
def relStep (validOrderIds : List JSValue) (i : Nat) (a : FlatActivityJS) (st : RelAccum) :
    RelAccum :=
  if ¬ truthy a.orderId then
    { st with
      invalidRelationships := st.invalidRelationships + 1
      relationshipDetails := st.relationshipDetails ++
        [⟨i, a.id, a.name, a.orderId, false, ["オーダーIDが空です"]⟩] }
  else if ¬ validOrderIds.any (fun oid => jsEq oid a.orderId) then
    { st with
      orphanedActivities := st.orphanedActivities ++ [⟨i, a.id, a.name, a.orderId, "error"⟩]
      invalidRelationships := st.invalidRelationships + 1
      isValid := false
      relationshipDetails := st.relationshipDetails ++
        [⟨i, a.id, a.name, a.orderId, false,
          ["存在しないオーダーID「" ++ jsDisplay a.orderId ++ "」を参照"]⟩] }
  else
    { st with
      validRelationships := st.validRelationships + 1
      orderActivityCounts :=
        countsSet st.orderActivityCounts a.orderId
          (countsGetD st.orderActivityCounts a.orderId + 1)
      relationshipDetails := st.relationshipDetails ++ [⟨i, a.id, a.name, a.orderId, true, []⟩] }

/-- The relationship loop. -/
def relGo (validOrderIds : List JSValue) : Nat → List FlatActivityJS → RelAccum → RelAccum
  | _, [], st => st
  | i, a :: rest, st => relGo validOrderIds (i + 1) rest (relStep validOrderIds i a st)

/-- ImportService.analyzeRelationships: orphan detection against the batch
order-id set, per-order activity counts, and a warning when some orders
have no linked activities. -/
def analyzeRelationships (orders : List FlatOrderJS) (activities : List FlatActivityJS) :
    RelResult :=
  let validOrderIds := orders.map (fun o => o.id)
  let initCounts := orders.foldl (fun m o => countsSet m o.id 0) []
  let st := relGo validOrderIds 0 activities ⟨[], 0, 0, [], initCounts, true⟩
  let errs :=
    if st.orphanedActivities.isEmpty then []
    else
      ("存在しないオーダーを参照するアクティビティが" ++
       toString st.orphanedActivities.length ++ "件見つかりました") ::
      st.orphanedActivities.map (fun oi =>
        "  - アクティビティ「" ++ jsDisplay oi.activityName ++ "」(ID: " ++
        jsDisplay oi.activityId ++ ") → 存在しないオーダーID「" ++
        jsDisplay oi.missingOrderId ++ "」")
  let emptyOrders := st.orderActivityCounts.filter (fun p => p.2 = 0)
  let warns :=
    if emptyOrders.isEmpty then []
    else ["アクティビティが関連付けられていないオーダーが" ++
          toString emptyOrders.length ++ "件あります"]
  { isValid := st.isValid, errors := errs, orphanedActivities := st.orphanedActivities,
    totalRelationships := activities.length, validRelationships := st.validRelationships,
    invalidRelationships := st.invalidRelationships,
    orderActivityCounts := st.orderActivityCounts,
    relationshipDetails := st.relationshipDetails, warnings := warns }

/-- `v.trim().toLowerCase()` on a raw value: throws (modelled as `.error`)
unless `v` is a string. -/
def jsTrimLower : JSValue → Except String String
  | .str s => .ok (jsToLower (jsTrim s))
  | _ => .error "TypeError: trim is not a function"

/-- A duplicate-name record for orders. -/
structure NameDupInfo where
  name : JSValue
  indices : Nat × Nat
  severity : String

/-- A duplicate-name record for activities (scoped to one `orderId`). -/
structure ActNameDupInfo where
  name : JSValue
  orderId : JSValue
  indices : Nat × Nat
  severity : String

/-- Result of ImportService.analyzeNameDuplicates. -/
structure NameDupResult where
  warnings : List String
  orderNames : List NameDupInfo
  activityNames : List ActNameDupInfo

/-- Orders loop of analyzeNameDuplicates (case-insensitive, trimmed). -/
def nameDupOrdersGo :
    Nat → List FlatOrderJS → List (String × Nat) → List NameDupInfo × List String →
    Except String (List NameDupInfo × List String)
  | _, [], _, acc => .ok acc
  | i, o :: rest, seen, acc =>
      match jsTrimLower o.name with
      | .error e => .error e
      | .ok normalizedName =>
          match seen.find? (fun p => p.1 == normalizedName) with
          | some p =>
              nameDupOrdersGo (i + 1) rest seen
                (acc.1 ++ [⟨o.name, (p.2, i), "warning"⟩],
                 acc.2 ++ ["オーダー名「" ++ jsDisplay o.name ++ "」が重複しています（インデックス: " ++
                           toString p.2 ++ ", " ++ toString i ++ "）"])
          | none => nameDupOrdersGo (i + 1) rest (seen ++ [(normalizedName, i)]) acc

/-- Lookup in the per-order nested name map (outer key compared with
SameValueZero). -/
def actNamesMapGet (m : List (JSValue × List (String × Nat))) (k : JSValue) :
    Option (List (String × Nat)) :=
  match m.find? (fun p => jsEq p.1 k) with
  | some p => some p.2
  | none => none

/-- `Map.set` for the per-order nested name map. -/
def actNamesMapSet (m : List (JSValue × List (String × Nat))) (k : JSValue)
    (v : List (String × Nat)) : List (JSValue × List (String × Nat)) :=
  match m with
  | [] => [(k, v)]
  | p :: rest => if jsEq p.1 k then (k, v) :: rest else p :: actNamesMapSet rest k v

/-- Activities loop of analyzeNameDuplicates: duplicate names are detected
within one `orderId` group only. -/
def nameDupActivitiesGo :
    Nat → List FlatActivityJS → List (JSValue × List (String × Nat)) →
    List ActNameDupInfo × List String →
    Except String (List ActNameDupInfo × List String)
  | _, [], _, acc => .ok acc
  | i, a :: rest, m, acc =>
      match jsTrimLower a.name with
      | .error e => .error e
      | .ok normalizedName =>
          let inner := (actNamesMapGet m a.orderId).getD []
          match inner.find? (fun p => p.1 == normalizedName) with
          | some p =>
              nameDupActivitiesGo (i + 1) rest m
                (acc.1 ++ [⟨a.name, a.orderId, (p.2, i), "warning"⟩],
                 acc.2 ++ ["オーダー「" ++ jsDisplay a.orderId ++ "」内でアクティビティ名「" ++
                           jsDisplay a.name ++ "」が重複しています（インデックス: " ++
                           toString p.2 ++ ", " ++ toString i ++ "）"])
          | none =>
              nameDupActivitiesGo (i + 1) rest
                (actNamesMapSet m a.orderId (inner ++ [(normalizedName, i)])) acc

/-- ImportService.analyzeNameDuplicates (warning-only). -/
def analyzeNameDuplicates (orders : List FlatOrderJS) (activities : List FlatActivityJS) :
    Except String NameDupResult :=
  match nameDupOrdersGo 0 orders [] ([], []) with
  | .error e => .error e
  | .ok op =>
      match nameDupActivitiesGo 0 activities [] ([], []) with
      | .error e => .error e
      | .ok ap => .ok ⟨op.2 ++ ap.2, op.1, ap.1⟩

/-- `!v || v.trim().length === 0` on a raw value (throws on truthy
non-strings). -/
def jsEmptyAfterTrim (v : JSValue) : Except String Bool :=
  if ¬ truthy v then .ok true
  else
    match v with
    | .str s => .ok (jsTrim s = "")
    | _ => .error "TypeError: trim is not a function"

/-- Epoch milliseconds of `new Date('2000-01-01')` (UTC midnight), the lower
bound of the data-quality freshness window. -/
def minDateMs : Int := daysFromCivil 2000 1 1 * 86400000

/-- Empty-name/empty-id data-quality loop for orders. -/
def qualityOrderEmptyGo : Nat → List FlatOrderJS → List String → Except String (List String)
  | _, [], warns => .ok warns
  | i, o :: rest, warns =>
      match jsEmptyAfterTrim o.name with
      | .error e => .error e
      | .ok nameEmpty =>
          match jsEmptyAfterTrim o.id with
          | .error e => .error e
          | .ok idEmpty =>
              qualityOrderEmptyGo (i + 1) rest
                (warns ++
                 (if nameEmpty then ["オーダー[" ++ toString i ++ "]: 名前が空です"] else []) ++
                 (if idEmpty then ["オーダー[" ++ toString i ++ "]: IDが空です"] else []))

/-- Empty-name/empty-id data-quality loop for activities. -/
def qualityActivityEmptyGo : Nat → List FlatActivityJS → List String → Except String (List String)
  | _, [], warns => .ok warns
  | i, a :: rest, warns =>
      match jsEmptyAfterTrim a.name with
      | .error e => .error e
      | .ok nameEmpty =>
          match jsEmptyAfterTrim a.id with
          | .error e => .error e
          | .ok idEmpty =>
              qualityActivityEmptyGo (i + 1) rest
                (warns ++
                 (if nameEmpty then ["アクティビティ[" ++ toString i ++ "]: 名前が空です"] else []) ++
                 (if idEmpty then ["アクティビティ[" ++ toString i ++ "]: IDが空です"] else []))

/-- Soft name-length heuristic (> 50 characters, warning only). -/
def qualityOrderLongNames : Nat → List FlatOrderJS → List String
  | _, [] => []
  | i, o :: rest =>
      (if lengthExceeds o.name 50 then
        ["オーダー[" ++ toString i ++ "]: 名前が異常に長いです（" ++
         toString ((jsLength o.name).getD 0) ++ "文字）"]
      else []) ++ qualityOrderLongNames (i + 1) rest

/-- Soft name-length heuristic for activities. -/
def qualityActivityLongNames : Nat → List FlatActivityJS → List String
  | _, [] => []
  | i, a :: rest =>
      (if lengthExceeds a.name 50 then
        ["アクティビティ[" ++ toString i ++ "]: 名前が異常に長いです（" ++
         toString ((jsLength a.name).getD 0) ++ "文字）"]
      else []) ++ qualityActivityLongNames (i + 1) rest

/-- Suspicious-but-legal `createdAt` check: a truthy `createdAt` parsing to
a date before 2000-01-01 or more than one year after `nowMs` draws a
warning; an Invalid Date (`none`, i.e. `NaN` comparisons) draws none. -/
def qualityDateSuspicious (nowMs : Int) (v : JSValue) : Bool :=
  if ¬ truthy v then false
  else
    match jsDateMs v with
    | some t => t < minDateMs || t > nowMs + 31536000000
    | none => false

/-- Date-window data-quality loop for orders. -/
def qualityOrderDates (nowMs : Int) : Nat → List FlatOrderJS → List String
  | _, [] => []
  | i, o :: rest =>
      (if qualityDateSuspicious nowMs o.createdAt then
        ["オーダー[" ++ toString i ++ "]: 作成日時が異常です（" ++ jsDisplay o.createdAt ++ "）"]
      else []) ++ qualityOrderDates nowMs (i + 1) rest

/-- Date-window data-quality loop for activities. -/
def qualityActivityDates (nowMs : Int) : Nat → List FlatActivityJS → List String
  | _, [] => []
  | i, a :: rest =>
      (if qualityDateSuspicious nowMs a.createdAt then
        ["アクティビティ[" ++ toString i ++ "]: 作成日時が異常です（" ++ jsDisplay a.createdAt ++ "）"]
      else []) ++ qualityActivityDates nowMs (i + 1) rest

/-- ImportService.analyzeDataQuality (warnings only): empty-after-trim
checks, soft name-length heuristic, date freshness window.  `nowMs` is the
current time (`new Date()`), threaded as a parameter. -/
def analyzeDataQuality (nowMs : Int) (orders : List FlatOrderJS)
    (activities : List FlatActivityJS) : Except String (List String) :=
  match qualityOrderEmptyGo 0 orders [] with
  | .error e => .error e
  | .ok w1 =>
      match qualityActivityEmptyGo 0 activities [] with
      | .error e => .error e
      | .ok w2 =>
          .ok (w1 ++ w2 ++ qualityOrderLongNames 0 orders ++
               qualityActivityLongNames 0 activities ++
               qualityOrderDates nowMs 0 orders ++ qualityActivityDates nowMs 0 activities)

/-- ImportService.checkCircularReferences: a stub in the source ("for future
extensions"); always valid with no findings. -/
def checkCircularReferences (orders : List FlatOrderJS) (activities : List FlatActivityJS) :
    CheckResult :=
  ⟨true, []⟩

/-- ImportService.calculateIntegrityScore: start at 100, subtract 10 per
error, 2 per warning, 5 per orphaned activity and 8 per duplicate-id entry
(orders and activities), then clamp with `Math.max(0, Math.min(100, s))`. -/
def calculateIntegrityScore (errors warnings : List String) (orphans : List OrphanInfo)
    (dupOrderIds : List DupOrderIdInfo) (dupActivityIds : List DupActivityIdInfo) : Int :=
  let score : Int := 100
  let score := score - errors.length * 10
  let score := score - warnings.length * 2
  let score := score - orphans.length * 5
  let score := score - dupOrderIds.length * 8
  let score := score - dupActivityIds.length * 8
  max 0 (min 100 score)

/-- Aggregated result of ImportService.validateDataIntegrity.  (The
source's `statistics` field holds two floating-point display strings that
nothing in the pipeline ever reads; it is not modelled.) -/
structure IntegrityResult where
  isValid : Bool
  errors : List String
  warnings : List String
  orphanedActivities : List OrphanInfo
  duplicateAnalysis : IdDupResult
  relationshipAnalysis : RelResult
  circularReferences : List String
  integrityScore : Int

/-- ImportService.validateDataIntegrity: duplicate-id analysis, relationship
analysis, name-duplicate warnings, data-quality warnings, the circular
stub, then the integrity score over the accumulated findings.  A
`TypeError` thrown by the name/quality analyses (truthy non-string name) is
caught by the source's `try`/`catch`, which invalidates the result and
appends one error; the score then keeps its initial value 0.
Note that analyzeRelationships' own `warnings` (empty orders) are kept only
inside `relationshipAnalysis` and never merged into the aggregate, exactly
as in the source. -/
def validateDataIntegrity (nowMs : Int) (orders : List FlatOrderJS)
    (activities : List FlatActivityJS) : IntegrityResult :=
  let idDup := analyzeIdDuplicates orders activities
  let rel := analyzeRelationships orders activities
  let baseValid := idDup.isValid && rel.isValid
  let baseErrors := (if ¬ idDup.isValid then idDup.errors else []) ++
                    (if ¬ rel.isValid then rel.errors else [])
  match analyzeNameDuplicates orders activities with
  | .error e =>
      { isValid := false
        errors := baseErrors ++ ["整合性チェック中にエラーが発生しました: " ++ e]
        warnings := []
        orphanedActivities := rel.orphanedActivities
        duplicateAnalysis := idDup
        relationshipAnalysis := rel
        circularReferences := []
        integrityScore := 0 }
  | .ok nameRes =>
      match analyzeDataQuality nowMs orders activities with
      | .error e =>
          { isValid := false
            errors := baseErrors ++ ["整合性チェック中にエラーが発生しました: " ++ e]
            warnings := nameRes.warnings
            orphanedActivities := rel.orphanedActivities
            duplicateAnalysis := idDup
            relationshipAnalysis := rel
            circularReferences := []
            integrityScore := 0 }
      | .ok qualWarns =>
          let circ := checkCircularReferences orders activities
          let errors := baseErrors ++ (if ¬ circ.isValid then circ.errors else [])
          let warnings := nameRes.warnings ++ qualWarns
          { isValid := baseValid && circ.isValid
            errors := errors
            warnings := warnings
            orphanedActivities := rel.orphanedActivities
            duplicateAnalysis := idDup
            relationshipAnalysis := rel
            circularReferences := []
            integrityScore :=
              calculateIntegrityScore errors warnings rel.orphanedActivities
                idDup.orderIds idDup.activityIds }

/-! ## validateImportData (lines 2253–2299) -/

/-- Aggregated result of ImportService.validateImportData.  On a schema
failure the source returns early without a `flattenedData` field
(`none` here). -/
structure ValidationResult where
  isValid : Bool
  errors : List String
  warnings : List String
  flattenedData : Option FlatDoc

/-- Per-order type-validation loop of validateImportData. -/
def orderTypeErrorsGo : Nat → List FlatOrderJS → List String
  | _, [] => []
  | i, o :: rest => validateDataTypes (flatOrderToJS o) "order" i ++ orderTypeErrorsGo (i + 1) rest

/-- Per-activity type-validation loop of validateImportData. -/
def activityTypeErrorsGo : Nat → List FlatActivityJS → List String
  | _, [] => []
  | i, a :: rest =>
      validateDataTypes (flatActivityToJS a) "activity" i ++ activityTypeErrorsGo (i + 1) rest

/-- ImportService.validateImportData: schema validation (aborting the
pipeline on failure), normalization to the flat form, per-record type
validation, and relationship/integrity validation.  `nowStr`/`nowMs` are
the current time as ISO string and epoch milliseconds. -/
def validateImportData (nowStr : String) (nowMs : Int) (data : JSValue) : ValidationResult :=
  let schemaResult := validateJSONSchema data
  if ¬ schemaResult.isValid then
    ⟨false, schemaResult.errors, schemaResult.warnings, none⟩
  else
    let flattenedData := convertNestedToFlat nowStr data
    let typeErrors := orderTypeErrorsGo 0 flattenedData.orders ++
                      activityTypeErrorsGo 0 flattenedData.activities
    let integrityResult := validateDataIntegrity nowMs flattenedData.orders flattenedData.activities
    let errors := typeErrors ++
                  (if ¬ integrityResult.isValid then integrityResult.errors else [])
    let warnings := schemaResult.warnings ++ integrityResult.warnings
    ⟨errors.isEmpty, errors, warnings, some flattenedData⟩

/-! ## Duplicate-vs-Store Detector and Reconciliation Executor
(ImportService.checkDuplicates lines 2410–2455, executeImport 2464–2527,
importOrders 2536–2584, importActivities 2593–2643, createOrderForImport
4225–4258, createActivityForImport 4265–4310; Order/Activity from
src/js/models.js; DataRepository.updateOrder/updateActivity from
src/js/repository.js lines 99–106 and 231–238)

The persisted store is threaded explicitly: its `orders`/`activities`
arrays hold records with exactly the model fields, so `FlatOrderJS` /
`FlatActivityJS` serve as the stored record types as well
(`Order.fromJSON`/`toJSON` copy exactly these fields). -/

/-- The persisted record sets owned by the DataRepository. -/
structure Store where
  orders : List FlatOrderJS
  activities : List FlatActivityJS

/-- A duplicate-vs-store entry for orders (`import`, `existing`,
`type : "id" | "name"`). -/
structure DupOrder where
  imp : FlatOrderJS
  existing : FlatOrderJS
  matchType : String

/-- A duplicate-vs-store entry for activities. -/
structure DupActivity where
  imp : FlatActivityJS
  existing : FlatActivityJS
  matchType : String

/-- Result of ImportService.checkDuplicates. -/
structure DupCheck where
  hasDuplicates : Bool
  duplicateOrders : List DupOrder
  duplicateActivities : List DupActivity

/-- The store-match predicate for an import order: same id OR same name. -/
def orderStoreMatch (io : FlatOrderJS) (e : FlatOrderJS) : Bool :=
  jsEq e.id io.id || jsEq e.name io.name

/-- The store-match predicate for an import activity: same id OR same
(orderId, name) pair. -/
def activityStoreMatch (ia : FlatActivityJS) (e : FlatActivityJS) : Bool :=
  jsEq e.id ia.id || (jsEq e.orderId ia.orderId && jsEq e.name ia.name)

/-- ImportService.checkDuplicates: for each import record, the first
existing store record matching by id or name (first match wins;
`matchType` is "id" exactly when the ids match). -/
def checkDuplicates (store : Store) (importData : FlatDoc) : DupCheck :=
  let duplicateOrders :=
    importData.orders.filterMap (fun io =>
      (store.orders.find? (orderStoreMatch io)).map (fun e =>
        (⟨io, e, if jsEq e.id io.id then "id" else "name"⟩ : DupOrder)))
  let duplicateActivities :=
    importData.activities.filterMap (fun ia =>
      (store.activities.find? (activityStoreMatch ia)).map (fun e =>
        (⟨ia, e, if jsEq e.id ia.id then "id" else "name"⟩ : DupActivity)))
  { hasDuplicates := ¬ duplicateOrders.isEmpty || ¬ duplicateActivities.isEmpty
    duplicateOrders := duplicateOrders
    duplicateActivities := duplicateActivities }

/-- DataRepository.updateOrder restricted to the update payloads the import
executor passes (`\x7bname, createdAt\x7d`): overwrite those fields on the first
store record whose id strictly equals `oid`; no record, no change. -/
def updateOrderRepo (orders : List FlatOrderJS) (oid : JSValue) (name createdAt : JSValue) :
    List FlatOrderJS :=
  match orders with
  | [] => []
  | o :: rest =>
      if jsEq o.id oid then { o with name := name, createdAt := createdAt } :: rest
      else o :: updateOrderRepo rest oid name createdAt

/-- DataRepository.updateActivity for the executor's payloads
(`\x7bname, orderId, createdAt\x7d`). -/
def updateActivityRepo (activities : List FlatActivityJS) (aid : JSValue)
    (name orderId createdAt : JSValue) : List FlatActivityJS :=
  match activities with
  | [] => []
  | a :: rest =>
      if jsEq a.id aid then
        { a with name := name, orderId := orderId, createdAt := createdAt } :: rest
      else a :: updateActivityRepo rest aid name orderId createdAt

/-- Order.isValid (src/js/models.js): truthy string id, truthy string name
with non-empty trim, truthy createdAt parsing to a valid date. -/
def orderModelIsValid (o : FlatOrderJS) : Bool :=
  truthy o.id && typeofStr o.id == "string" &&
  truthy o.name && typeofStr o.name == "string" && jsTrim (strOf o.name) ≠ "" &&
  truthy o.createdAt && (jsDateMs o.createdAt).isSome

/-- Activity.isValid (src/js/models.js): as for orders, plus a truthy string
orderId. -/
def activityModelIsValid (a : FlatActivityJS) : Bool :=
  truthy a.id && typeofStr a.id == "string" &&
  truthy a.name && typeofStr a.name == "string" && jsTrim (strOf a.name) ≠ "" &&
  truthy a.orderId && typeofStr a.orderId == "string" &&
  truthy a.createdAt && (jsDateMs a.createdAt).isSome

/-- The import-record name guard shared by both create paths:
`!name || typeof name !== 'string' || name.trim().length === 0`. -/
def importNameOk (v : JSValue) : Bool :=
  truthy v && typeofStr v == "string" && jsTrim (strOf v) ≠ ""

/-- ImportService.createOrderForImport: validate the name, reject an id
already present in the store, build `new Order(id, name.trim(), createdAt)`,
check Order.isValid, and push its JSON.  Returns success and the new order
list (unchanged on failure). -/
def createOrderForImport (store : Store) (orderData : FlatOrderJS) :
    Bool × List FlatOrderJS :=
  if ¬ importNameOk orderData.name then (false, store.orders)
  else if store.orders.any (fun e => jsEq e.id orderData.id) then (false, store.orders)
  else
    let order : FlatOrderJS :=
      { id := orderData.id, name := .str (jsTrim (strOf orderData.name)),
        createdAt := orderData.createdAt }
    if ¬ orderModelIsValid order then (false, store.orders)
    else (true, store.orders ++ [order])

/-- ImportService.createActivityForImport: validate name and orderId, require
the referenced order to exist in the (current) store, reject an id already
present, build the Activity, check Activity.isValid, push its JSON. -/
def createActivityForImport (store : Store) (activityData : FlatActivityJS) :
    Bool × List FlatActivityJS :=
  if ¬ importNameOk activityData.name then (false, store.activities)
  else if ¬ truthy activityData.orderId then (false, store.activities)
  else if ¬ store.orders.any (fun e => jsEq e.id activityData.orderId) then
    (false, store.activities)
  else if store.activities.any (fun e => jsEq e.id activityData.id) then
    (false, store.activities)
  else
    let activity : FlatActivityJS :=
      { id := activityData.id, name := .str (jsTrim (strOf activityData.name)),
        orderId := activityData.orderId, createdAt := activityData.createdAt }
    if ¬ activityModelIsValid activity then (false, store.activities)
    else (true, store.activities ++ [activity])

/-- Per-entity counters of one import pass (`\x7bcreated, skipped, updated,
errors\x7d`). -/
structure SubResult where
  created : Nat
  skipped : Nat
  updated : Nat
  errors : List String
deriving Repr, DecidableEq

/-- Pointwise accumulation of two sub-results (counts add, errors append in
order). -/
def SubResult.append (r1 r2 : SubResult) : SubResult :=
  ⟨r1.created + r2.created, r1.skipped + r2.skipped, r1.updated + r2.updated,
   r1.errors ++ r2.errors⟩

/-- Loop body of ImportService.importOrders for one order.  A colliding
record (its id is among the duplicate import ids) is handled by policy:
`overwrite` copies the incoming mutable fields into the store, `merge`
copies the matched existing record's own fields back onto the record with
the import's id (a field-wise no-op when the match was by id), anything
else skips.  A non-colliding record goes through createOrderForImport; a
failure there appends one per-record error.  The dead `merge` branch where
`find` returns nothing models the host `TypeError` being caught by the
per-record `catch` (unreachable: the id was found in the same list). -/
def importOrdersStep (duplicates : List DupOrder) (duplicateHandling : String)
    (store : Store) (order : FlatOrderJS) : Store × SubResult :=
  if duplicates.any (fun dup => jsEq dup.imp.id order.id) then
    if duplicateHandling == "overwrite" then
      ({ store with orders := updateOrderRepo store.orders order.id order.name order.createdAt },
       ⟨0, 0, 1, []⟩)
    else if duplicateHandling == "merge" then
      match duplicates.find? (fun dup => jsEq dup.imp.id order.id) with
      | some duplicate =>
          ({ store with orders := updateOrderRepo store.orders order.id
                          duplicate.existing.name duplicate.existing.createdAt },
           ⟨0, 0, 1, []⟩)
      | none =>
          (store, ⟨0, 0, 0, ["オーダー「" ++ jsDisplay order.name ++ "」のインポートに失敗: " ++
                             "TypeError: cannot read properties of undefined"]⟩)
    else (store, ⟨0, 1, 0, []⟩)
  else
    let c := createOrderForImport store order
    if c.1 then ({ store with orders := c.2 }, ⟨1, 0, 0, []⟩)
    else ({ store with orders := c.2 },
          ⟨0, 0, 0, ["オーダー「" ++ jsDisplay order.name ++ "」の作成に失敗しました"]⟩)

/-- The importOrders loop over the batch: every record is processed, results
accumulate in order. -/
def importOrdersGo (duplicates : List DupOrder) (duplicateHandling : String)
    (store : Store) : List FlatOrderJS → Store × SubResult
  | [] => (store, ⟨0, 0, 0, []⟩)
  | o :: rest =>
      let p := importOrdersStep duplicates duplicateHandling store o
      let q := importOrdersGo duplicates duplicateHandling p.1 rest
      (q.1, p.2.append q.2)

/-- Loop body of ImportService.importActivities for one activity. -/
def importActivitiesStep (duplicates : List DupActivity) (duplicateHandling : String)
    (store : Store) (activity : FlatActivityJS) : Store × SubResult :=
  if duplicates.any (fun dup => jsEq dup.imp.id activity.id) then
    if duplicateHandling == "overwrite" then
      ({ store with activities := updateActivityRepo store.activities activity.id
                      activity.name activity.orderId activity.createdAt },
       ⟨0, 0, 1, []⟩)
    else if duplicateHandling == "merge" then
      match duplicates.find? (fun dup => jsEq dup.imp.id activity.id) with
      | some duplicate =>
          ({ store with activities := updateActivityRepo store.activities activity.id
                          duplicate.existing.name duplicate.existing.orderId
                          duplicate.existing.createdAt },
           ⟨0, 0, 1, []⟩)
      | none =>
          (store, ⟨0, 0, 0, ["アクティビティ「" ++ jsDisplay activity.name ++ "」のインポートに失敗: " ++
                             "TypeError: cannot read properties of undefined"]⟩)
    else (store, ⟨0, 1, 0, []⟩)
  else
    let c := createActivityForImport store activity
    if c.1 then ({ store with activities := c.2 }, ⟨1, 0, 0, []⟩)
    else ({ store with activities := c.2 },
          ⟨0, 0, 0, ["アクティビティ「" ++ jsDisplay activity.name ++ "」の作成に失敗しました"]⟩)

/-- The importActivities loop over the batch. -/
def importActivitiesGo (duplicates : List DupActivity) (duplicateHandling : String)
    (store : Store) : List FlatActivityJS → Store × SubResult
  | [] => (store, ⟨0, 0, 0, []⟩)
  | a :: rest =>
      let p := importActivitiesStep duplicates duplicateHandling store a
      let q := importActivitiesGo duplicates duplicateHandling p.1 rest
      (q.1, p.2.append q.2)

/-- The caller-supplied import options (only `duplicateHandling` is read). -/
structure ImportOptions where
  duplicateHandling : Option String

/-- The aggregated reconciliation outcome. -/
structure ImportResult where
  success : Bool
  newOrders : Nat
  newActivities : Nat
  skippedOrders : Nat
  skippedActivities : Nat
  updatedOrders : Nat
  updatedActivities : Nat
  errors : List String
deriving Repr, DecidableEq

/-- The policy default `options.duplicateHandling || 'skip'` (absent or
empty-string options are falsy). -/
def effectivePolicy (opts : ImportOptions) : String :=
  match opts.duplicateHandling with
  | none => "skip"
  | some p => if p = "" then "skip" else p

/-- ImportService.executeImport: import all orders, then all activities,
aggregate counts and errors, and set `success` to false exactly when errors
were collected.  The final `saveData` call is the persistence write, out of
scope per the specification; it is modelled as succeeding (the store state
is the value this function returns). -/
def executeImport (importData : FlatDoc) (duplicateCheck : DupCheck)
    (opts : ImportOptions) (store : Store) : Store × ImportResult :=
  let duplicateHandling := effectivePolicy opts
  let op := importOrdersGo duplicateCheck.duplicateOrders duplicateHandling store
              importData.orders
  let ap := importActivitiesGo duplicateCheck.duplicateActivities duplicateHandling op.1
              importData.activities
  let errors := op.2.errors ++ ap.2.errors
  (ap.1,
   { success := errors.isEmpty
     newOrders := op.2.created
     newActivities := ap.2.created
     skippedOrders := op.2.skipped
     skippedActivities := ap.2.skipped
     updatedOrders := op.2.updated
     updatedActivities := ap.2.updated
     errors := errors })

/-- ImportService.importFromJSON after `parseJSON`: validate the document;
on failure throw (here: return `.error` with) the validation result — no
duplicate check and no reconciliation runs; on success run the duplicate
detector and the executor over the flattened data. -/
def importFromParsed (nowStr : String) (nowMs : Int) (data : JSValue)
    (opts : ImportOptions) (store : Store) :
    Except ValidationResult (ImportResult × Store) :=
  let validationResult := validateImportData nowStr nowMs data
  if ¬ validationResult.isValid then .error validationResult
  else
    match validationResult.flattenedData with
    | some flatData =>
        let duplicateCheck := checkDuplicates store flatData
        let p := executeImport flatData duplicateCheck opts store
        .ok (p.2, p.1)
    | none => .error validationResult

/-! ## Canonical typed records and encoders used by the theorem statements

The data model (§3) records have string-valued fields; these typed record
types and their `JSValue` encoders let theorems quantify over canonical
batches and documents. -/

/-- A canonical order record (string fields, as in the data model). -/
structure OrderT where
  id : String
  name : String
  createdAt : String

/-- A canonical activity record. -/
structure ActivityT where
  id : String
  name : String
  orderId : String
  createdAt : String

/-- A canonical embedded (nested-form) activity: no `orderId` of its own. -/
structure NestedActT where
  id : String
  name : String
  createdAt : String

/-- A canonical nested-form order with embedded activities. -/
structure NestedOrderT where
  id : String
  name : String
  createdAt : String
  activities : List NestedActT

/-- JSON encoding of a canonical order. -/
def encOrderT (o : OrderT) : JSValue :=
  .obj [("id", .str o.id), ("name", .str o.name), ("createdAt", .str o.createdAt)]

/-- JSON encoding of a canonical activity. -/
def encActivityT (a : ActivityT) : JSValue :=
  .obj [("id", .str a.id), ("name", .str a.name), ("orderId", .str a.orderId),
        ("createdAt", .str a.createdAt)]

/-- JSON encoding of a canonical embedded activity. -/
def encNestedActT (a : NestedActT) : JSValue :=
  .obj [("id", .str a.id), ("name", .str a.name), ("createdAt", .str a.createdAt)]

/-- JSON encoding of a canonical nested-form order. -/
def encNestedOrderT (o : NestedOrderT) : JSValue :=
  .obj [("id", .str o.id), ("name", .str o.name), ("createdAt", .str o.createdAt),
        ("activities", .arr (o.activities.map encNestedActT))]

/-- A canonical nested-form document. -/
def encNestedDoc (os : List NestedOrderT) : JSValue :=
  .obj [("orders", .arr (os.map encNestedOrderT))]

/-- A canonical flat-form document with top-level `orders` and `activities`
arrays. -/
def encFlatFormDoc (os : List OrderT) (as : List ActivityT) : JSValue :=
  .obj [("orders", .arr (os.map encOrderT)), ("activities", .arr (as.map encActivityT))]

/-- The flat order record carrying the fields of a canonical order. -/
def flatOfOrderT (o : OrderT) : FlatOrderJS :=
  ⟨.str o.id, .str o.name, .str o.createdAt⟩

/-- The flat activity record carrying the fields of a canonical activity. -/
def flatOfActivityT (a : ActivityT) : FlatActivityJS :=
  ⟨.str a.id, .str a.name, .str a.orderId, .str a.createdAt⟩

/-- Claim-side description (from the specification's words) of which
activities are orphaned: those whose `orderId` is non-empty (truthy) and
strictly-equal to no batch order id, recorded in batch order with their
index.  Compared against `analyzeRelationships` in the C4 theorems. -/
def orphanedSpec (orders : List FlatOrderJS) : Nat → List FlatActivityJS → List OrphanInfo
  | _, [] => []
  | i, a :: rest =>
      (if truthy a.orderId &&
          ¬ (orders.map (fun o => o.id)).any (fun oid => jsEq oid a.orderId) then
        [⟨i, a.id, a.name, a.orderId, "error"⟩]
      else []) ++ orphanedSpec orders (i + 1) rest

/-! ## Concrete instances used by counterexamples and witnesses -/

/-- A well-formed ISO timestamp used by the concrete instances. -/
def sampleTime : String := "2024-01-15T10:00:00.000Z"

/-- A concrete "current time" (epoch ms, mid-2024) for the data-quality
window. -/
def sampleNowMs : Int := 1717200000000

/-- A 200-character name (all "a"). -/
def name200 : String := String.mk (List.replicate 200 'a')

/-- A 201-character name. -/
def name201 : String := String.mk (List.replicate 201 'a')

/-- Two orders sharing a name (warning-only defect), C5. -/
def warnOnlyOrders : List FlatOrderJS :=
  [⟨.str "o1", .str "A", .str sampleTime⟩, ⟨.str "o2", .str "A", .str sampleTime⟩]

/-- Activities linking both orders of `warnOnlyOrders`, C5. -/
def warnOnlyActivities : List FlatActivityJS :=
  [⟨.str "a1", .str "T1", .str "o1", .str sampleTime⟩,
   ⟨.str "a2", .str "T2", .str "o2", .str sampleTime⟩]

/-- One order, C4. -/
def emptyOrderIdOrders : List FlatOrderJS := [⟨.str "o1", .str "A", .str sampleTime⟩]

/-- One activity whose `orderId` is the empty string, C4. -/
def emptyOrderIdActivities : List FlatActivityJS :=
  [⟨.str "a1", .str "B", .str "", .str sampleTime⟩]

/-- An order record whose only defect is a 200-character name, C3. -/
def longNameOrderJS : JSValue :=
  .obj [("id", .str "o1"), ("name", .str name200), ("createdAt", .str sampleTime)]

/-- A flat-form document: one order and one top-level activity, C2. -/
def flatFormSample : JSValue :=
  encFlatFormDoc [⟨"o1", "A", sampleTime⟩] [⟨"a1", "B", "o1", sampleTime⟩]

/-- A store in which the import of order `o1` finds its first match by name
(on the record `x`) although a record with id `o1` also exists, C1. -/
def mergeShadowStore : Store :=
  ⟨[⟨.str "x", .str "N", .str sampleTime⟩, ⟨.str "o1", .str "M", .str sampleTime⟩], []⟩

/-- The import batch colliding with `mergeShadowStore`: order `o1` named
like the store's `x`, C1. -/
def mergeShadowBatch : FlatDoc := ⟨[⟨.str "o1", .str "N", .str sampleTime⟩], []⟩

/-- A store holding just `o1`, for the C1/C10 witnesses. -/
def mergePlainStore : Store := ⟨[⟨.str "o1", .str "M", .str sampleTime⟩], []⟩

/-- An import order colliding with `mergePlainStore` by id. -/
def plainImportOrder : FlatOrderJS := ⟨.str "o1", .str "N", .str sampleTime⟩

/-- A store with one order and one activity, for the C1 activity witness. -/
def mergeActStore : Store :=
  ⟨[⟨.str "o1", .str "A", .str sampleTime⟩],
   [⟨.str "a1", .str "B", .str "o1", .str sampleTime⟩]⟩

/-- An import activity colliding with `mergeActStore` by id. -/
def plainImportActivity : FlatActivityJS := ⟨.str "a1", .str "C", .str "o1", .str sampleTime⟩

/-- An import order whose creation fails (empty name), for the C7 witness. -/
def failingImportOrder : FlatOrderJS := ⟨.str "o9", .str "", .str sampleTime⟩

/-- Two nested orders with embedded activities, for the C9 witness. -/
def nestedSample : List NestedOrderT :=
  [⟨"o1", "A", sampleTime, [⟨"a1", "T1", sampleTime⟩, ⟨"a2", "T2", sampleTime⟩]⟩,
   ⟨"o2", "B", sampleTime, [⟨"a3", "T3", sampleTime⟩]⟩]

/-- The flat activity block contributed by one canonical nested order when
flattened: its embedded activities verbatim (every field of a canonical
record is a non-empty string, so no synthesis fires), with `orderId` set to
the parent order's id.  Used to characterise the normalizer's output for C9. -/
def actBlock (o : NestedOrderT) : List FlatActivityJS :=
  o.activities.map (fun a => ⟨.str a.id, .str a.name, .str o.id, .str a.createdAt⟩)

/-- Concatenation of the per-order activity blocks of a canonical nested
document, in order. -/
def actBlocks : List NestedOrderT → List FlatActivityJS
  | [] => []
  | o :: rest => actBlock o ++ actBlocks rest

/-! ## Helper lemmas -/

/-- A successful `find?` splits its list into a failing prefix, the found
element, and a suffix. -/
theorem find_eq_some_split {α : Type} (p : α → Bool) (e : α) :
    ∀ (l : List α), l.find? p = some e →
      ∃ l1 l2, l = l1 ++ e :: l2 ∧ p e = true ∧ ∀ x ∈ l1, p x = false
  | [], h => by simp [List.find?] at h
  | a :: rest, h => by
      rcases hp : p a with _ | _
      · rw [List.find?_cons_of_neg _ (by simp [hp])] at h
        obtain ⟨l1, l2, heq, hpe, hl1⟩ := find_eq_some_split p e rest h
        refine ⟨a :: l1, l2, by rw [heq]; rfl, hpe, ?_⟩
        intro x hx
        rcases List.mem_cons.1 hx with rfl | hx2
        · exact hp
        · exact hl1 x hx2
      · rw [List.find?_cons_of_pos _ hp] at h
        cases h
        exact ⟨[], rest, rfl, hp, by simp⟩

/-- `jsEq` only relates primitives, on which it is reflexive on the right. -/
theorem jsEq_right_refl {a b : JSValue} (h : jsEq a b = true) : jsEq b b = true := by
  cases a <;> cases b <;> simp_all [jsEq]

/-- The empty sub-result is a left identity for accumulation. -/
theorem subResult_nil_append (r : SubResult) : (⟨0, 0, 0, []⟩ : SubResult).append r = r := by
  cases r; simp [SubResult.append]

/-- Sub-result accumulation is associative. -/
theorem subResult_append_assoc (a b c : SubResult) :
    (a.append b).append c = a.append (b.append c) := by
  cases a; cases b; cases c
  simp [SubResult.append, Nat.add_assoc]

/-- A failing createOrderForImport never changes the store's orders. -/
theorem createOrderForImport_fail_no_mutation (store : Store) (o : FlatOrderJS)
    (h : (createOrderForImport store o).1 = false) :
    (createOrderForImport store o).2 = store.orders := by
  unfold createOrderForImport at *
  by_cases h1 : importNameOk o.name
  · by_cases h2 : store.orders.any (fun e => jsEq e.id o.id)
    · simp [h1, h2]
    · by_cases h3 : orderModelIsValid ⟨o.id, .str (jsTrim (strOf o.name)), o.createdAt⟩
      · simp [h1, h2, h3] at h
      · simp [h1, h2, h3]
  · simp [h1]

/-! ## C6: the integrity-score formula -/

/-- C6.  The integrity score equals 100 minus 10 per error, 2 per warning,
5 per orphaned activity and 8 per duplicate-id entry (orders plus
activities), clamped to [0, 100]; in particular it always lies between 0
and 100. -/
theorem c6_integrity_score_formula (errors warnings : List String)
    (orphans : List OrphanInfo) (dupOrderIds : List DupOrderIdInfo)
    (dupActivityIds : List DupActivityIdInfo) :
    calculateIntegrityScore errors warnings orphans dupOrderIds dupActivityIds =
      max 0 (min 100 (100 - 10 * (errors.length : Int) - 2 * (warnings.length : Int) -
        5 * (orphans.length : Int) -
        8 * ((dupOrderIds.length : Int) + (dupActivityIds.length : Int)))) ∧
    0 ≤ calculateIntegrityScore errors warnings orphans dupOrderIds dupActivityIds ∧
    calculateIntegrityScore errors warnings orphans dupOrderIds dupActivityIds ≤ 100 := by
  unfold calculateIntegrityScore
  refine ⟨?_, ?_, ?_⟩
  · ring_nf
  · exact le_max_left 0 _
  · exact max_le (by norm_num) (min_le_left _ _)

/-! ## C8: an array root aborts at the structural stage -/

/-- C8.  For every document whose root is a JSON array, the pipeline fails
with exactly the one root-structure error, no warnings and no flattened
data, and returns before the duplicate-vs-store check and the
reconciliation executor run (the `.error` result is produced from
`validateImportData` alone, so no later stage observes the store). -/
theorem c8_array_root_aborts (es : List JSValue) (store : Store) (opts : ImportOptions)
    (nowStr : String) (nowMs : Int) :
    importFromParsed nowStr nowMs (.arr es) opts store =
      .error ⟨false, ["ルートは配列ではなくオブジェクトである必要があります"], [], none⟩ ∧
    validateImportData nowStr nowMs (.arr es) =
      ⟨false, ["ルートは配列ではなくオブジェクトである必要があります"], [], none⟩ ∧
    (validateImportData nowStr nowMs (.arr es)).errors.length = 1 := by
  refine ⟨rfl, rfl, rfl⟩

/-! ## C2: flat-form top-level activities and the normalizer -/

/-- C2 counterexample.  Normalizing a flat-form document (top-level
`orders` and `activities` arrays) yields a flat result whose `activities`
list is empty: the record `a1` of the top-level `activities` array is not
included, contradicting the claim that normalization keeps those records. -/
theorem c2_flat_counterexample :
    (convertNestedToFlat sampleTime flatFormSample).activities = [] ∧
    (convertNestedToFlat sampleTime flatFormSample).orders =
      [⟨.str "o1", .str "A", .str sampleTime⟩] := by
  exact ⟨rfl, rfl⟩

/-- C2 amended.  The normalizer reads only the top-level `orders` property:
its output is invariant under changing (in particular, dropping) the
top-level `activities` array, so flat-form activities are silently
discarded; a flat-form document is nevertheless accepted by the structural
validator (its `orders` is an array). -/
theorem c2_normalizer_amended :
    (∀ (now : String) (v w : JSValue), getProp v "orders" = getProp w "orders" →
      convertNestedToFlat now v = convertNestedToFlat now w) ∧
    (∀ (now : String) (ov av : JSValue) (rest : List (String × JSValue)),
      convertNestedToFlat now (.obj (("orders", ov) :: ("activities", av) :: rest)) =
        convertNestedToFlat now (.obj [("orders", ov)])) ∧
    (∀ (ov : JSValue) (more : List (String × JSValue)), isArrayJS ov = true →
      (validateRequiredProperties (.obj (("orders", ov) :: more))).isValid = true) := by
  refine ⟨?_, ?_, ?_⟩
  · intro now v w h
    unfold convertNestedToFlat
    rw [h]
  · intro now ov av rest
    rfl
  · intro ov more h
    have hget : getProp (.obj (("orders", ov) :: more)) "orders" = ov := rfl
    have hhas : hasProp (.obj (("orders", ov) :: more)) "orders" = true := rfl
    unfold validateRequiredProperties
    rw [hget, hhas, h]
    split
    next hcon => exact absurd rfl hcon
    next =>
      show (if ((objKeys (JSValue.obj (("orders", ov) :: more))).filter
          (fun k => ¬ allowedTopLevelProps.contains k)).isEmpty = true
        then (⟨true, [], []⟩ : CheckWarnResult)
        else ⟨true, [], ["予期しないプロパティが含まれています: " ++
          String.intercalate ", " ((objKeys (JSValue.obj (("orders", ov) :: more))).filter
            (fun k => ¬ allowedTopLevelProps.contains k))]⟩).isValid = true
      split <;> rfl

/-- C2 witness: the amended invariance applied to the concrete flat-form
document and its activity-free counterpart. -/
theorem c2_normalizer_amended_witness :
    convertNestedToFlat sampleTime flatFormSample =
      convertNestedToFlat sampleTime
        (.obj [("orders", .arr [encOrderT ⟨"o1", "A", sampleTime⟩])]) :=
  c2_normalizer_amended.1 sampleTime flatFormSample
    (.obj [("orders", .arr [encOrderT ⟨"o1", "A", sampleTime⟩])]) rfl

/-! ## C3: the two name-length limits -/

/-- C3 counterexample.  An order whose only defect is a 200-character name
is rejected by the per-record type validator (validateDataTypes emits the
name-invalid error for that record, because validateName caps the trimmed
length at 100), even though the schema constraint validator accepts a
200-character name.  This contradicts the claim that the Type & Constraint
Validator accepts names of length exactly 200. -/
theorem c3_name_length_counterexample :
    validateDataTypes longNameOrderJS "order" 0 =
      ["オーダー[0]: 名前が無効です（空文字、null、または長すぎます）"] ∧
    validateName (.str name200) = false ∧
    validateStringConstraints (encFlatFormDoc [⟨"o1", name200, sampleTime⟩] []) = ⟨true, []⟩ := by
  refine ⟨by decide, by decide, by decide⟩

/-- `order.name && order.name.length > n` on a string is just the length
test (a string longer than `n` is non-empty). -/
theorem lengthExceeds_str (s : String) (n : Nat) :
    lengthExceeds (.str s) n = decide (n < s.length) := by
  by_cases h : s = ""
  · subst h
    simp [lengthExceeds, truthy, jsLength]
  · simp [lengthExceeds, truthy, jsLength, h]

/-- A string has length zero exactly when it is empty. -/
theorem string_length_eq_zero (t : String) : t.length = 0 ↔ t = "" := by
  constructor
  · intro h
    obtain ⟨data⟩ := t
    cases data with
    | nil => rfl
    | cons c cs => simp [String.length] at h
  · intro h
    subst h
    rfl

/-- C3 amended.  The 200-character limit lives in the schema constraint
validator: for a record whose other string fields are within their limits,
it emits no error at length ≤ 200 and exactly one index-referencing error
at length > 200 (shown for a single record at index 0, for both orders and
activities).  The per-record type validator is stricter: validateName
accepts exactly the names whose trimmed form is non-empty and at most 100
characters, and whenever it rejects, validateDataTypes reports the
name-invalid error for that record's index — so a 200-character name is
still rejected, one stage later than the constraint check. -/
theorem c3_name_length_amended :
    (∀ (idv nm cat : String), idv.length ≤ 100 →
      validateStringConstraints (encFlatFormDoc [⟨idv, nm, cat⟩] []) =
        (if 200 < nm.length then
          ⟨false, ["オーダー[0].name: 文字数制限を超えています（最大200文字）"]⟩
        else ⟨true, []⟩)) ∧
    (∀ (idv nm oid cat : String), idv.length ≤ 100 → oid.length ≤ 100 →
      validateStringConstraints (encFlatFormDoc [] [⟨idv, nm, oid, cat⟩]) =
        (if 200 < nm.length then
          ⟨false, ["アクティビティ[0].name: 文字数制限を超えています（最大200文字）"]⟩
        else ⟨true, []⟩)) ∧
    (∀ (s : String), validateName (.str s) = true ↔ (jsTrim s ≠ "" ∧ (jsTrim s).length ≤ 100)) ∧
    (∀ (i : Nat) (nm : String), validateName (.str nm) = false →
      ("オーダー" ++ "[" ++ toString i ++ "]" ++ ": 名前が無効です（空文字、null、または長すぎます）") ∈
        validateDataTypes (.obj [("id", .str "o1"), ("name", .str nm),
          ("createdAt", .str sampleTime)]) "order" i) := by
  refine ⟨?_, ?_, ?_, ?_⟩
  · intro idv nm cat h
    have hid : lengthExceeds (.str idv) 100 = false := by
      rw [lengthExceeds_str]
      simpa using h
    have hdoc : validateStringConstraints (encFlatFormDoc [⟨idv, nm, cat⟩] []) =
        ⟨(orderStringConstraintErrors 0 [encOrderT ⟨idv, nm, cat⟩] ++ []).isEmpty,
         orderStringConstraintErrors 0 [encOrderT ⟨idv, nm, cat⟩] ++ []⟩ := rfl
    have hrec : orderStringConstraintErrors 0 [encOrderT ⟨idv, nm, cat⟩] =
        (if lengthExceeds (.str idv) 100 then
          ["オーダー[" ++ toString 0 ++ "].id: 文字数制限を超えています（最大100文字）"]
        else []) ++
        (if lengthExceeds (.str nm) 200 then
          ["オーダー[" ++ toString 0 ++ "].name: 文字数制限を超えています（最大200文字）"]
        else []) ++
        orderStringConstraintErrors 1 [] := rfl
    have hmsg : ("オーダー[" ++ toString 0 ++
        "].name: 文字数制限を超えています（最大200文字）" : String) =
        "オーダー[0].name: 文字数制限を超えています（最大200文字）" := rfl
    rw [hdoc, hrec, hid, lengthExceeds_str, hmsg]
    by_cases hnm : 200 < nm.length
    · simp [hnm, orderStringConstraintErrors]
    · simp [hnm, orderStringConstraintErrors]
  · intro idv nm oid cat h1 h2
    have hid : lengthExceeds (.str idv) 100 = false := by
      rw [lengthExceeds_str]
      simpa using h1
    have hoid : lengthExceeds (.str oid) 100 = false := by
      rw [lengthExceeds_str]
      simpa using h2
    have hdoc : validateStringConstraints (encFlatFormDoc [] [⟨idv, nm, oid, cat⟩]) =
        ⟨([] ++ activityStringConstraintErrors 0 [encActivityT ⟨idv, nm, oid, cat⟩]).isEmpty,
         [] ++ activityStringConstraintErrors 0 [encActivityT ⟨idv, nm, oid, cat⟩]⟩ := rfl
    have hrec : activityStringConstraintErrors 0 [encActivityT ⟨idv, nm, oid, cat⟩] =
        (if lengthExceeds (.str idv) 100 then
          ["アクティビティ[" ++ toString 0 ++ "].id: 文字数制限を超えています（最大100文字）"]
        else []) ++
        (if lengthExceeds (.str nm) 200 then
          ["アクティビティ[" ++ toString 0 ++ "].name: 文字数制限を超えています（最大200文字）"]
        else []) ++
        (if lengthExceeds (.str oid) 100 then
          ["アクティビティ[" ++ toString 0 ++ "].orderId: 文字数制限を超えています（最大100文字）"]
        else []) ++
        activityStringConstraintErrors 1 [] := rfl
    have hmsg : ("アクティビティ[" ++ toString 0 ++
        "].name: 文字数制限を超えています（最大200文字）" : String) =
        "アクティビティ[0].name: 文字数制限を超えています（最大200文字）" := rfl
    rw [hdoc, hrec, hid, hoid, lengthExceeds_str, hmsg]
    by_cases hnm : 200 < nm.length
    · simp [hnm, activityStringConstraintErrors]
    · simp [hnm, activityStringConstraintErrors]
  · intro s
    by_cases hs : s = ""
    · subst hs
      constructor
      · intro hv
        exact absurd hv (by decide)
      · intro hpair
        exact absurd (show jsTrim "" = "" from rfl) hpair.1
    · have hvn : validateName (.str s) =
          (if (jsTrim s).length = 0 then false
           else if (jsTrim s).length > 100 then false else true) := by
        unfold validateName
        rw [if_neg]
        · rfl
        · simp [truthy, typeofStr, hs]
      rw [hvn]
      by_cases ht : (jsTrim s).length = 0
      · rw [if_pos ht]
        constructor
        · intro hv
          exact absurd hv (by decide)
        · intro hpair
          exact (hpair.1 ((string_length_eq_zero (jsTrim s)).1 ht)).elim
      · rw [if_neg ht]
        by_cases hl : (jsTrim s).length > 100
        · rw [if_pos hl]
          constructor
          · intro hv
            exact absurd hv (by decide)
          · intro hpair
            exact absurd hpair.2 (by omega)
        · rw [if_neg hl]
          constructor
          · intro _
            refine ⟨?_, by omega⟩
            intro hcon
            exact ht ((string_length_eq_zero (jsTrim s)).2 hcon)
          · intro _
            rfl
  · intro i nm h
    have heval : validateDataTypes (.obj [("id", .str "o1"), ("name", .str nm),
        ("createdAt", .str sampleTime)]) "order" i =
        [] ++
        (if ¬ validateName (.str nm) then
          ["オーダー" ++ "[" ++ toString i ++ "]" ++
           ": 名前が無効です（空文字、null、または長すぎます）"]
        else []) ++ [] ++ [] ++ [] := rfl
    rw [heval, h]
    simp

/-- C3 witness: the amended constraint characterization applied at lengths
200 and 201. -/
theorem c3_name_length_amended_witness :
    validateStringConstraints (encFlatFormDoc [⟨"o1", name200, sampleTime⟩] []) =
      ⟨true, []⟩ ∧
    validateStringConstraints (encFlatFormDoc [⟨"o1", name201, sampleTime⟩] []) =
      ⟨false, ["オーダー[0].name: 文字数制限を超えています（最大200文字）"]⟩ := by
  constructor
  · rw [c3_name_length_amended.1 "o1" name200 sampleTime (by decide)]
    decide
  · rw [c3_name_length_amended.1 "o1" name201 sampleTime (by decide)]
    decide

/-! ## C4: orphan characterization of the relationship analyzer -/

/-- The duplicate-id orders loop appends some batch of new findings and is
valid exactly when it appends none. -/
theorem idDupOrdersGo_char (orders : List FlatOrderJS) :
    ∀ (xs : List FlatOrderJS) (i : Nat) (seen : List (JSValue × Nat))
      (dups : List DupOrderIdInfo) (valid : Bool),
      ∃ extra, idDupOrdersGo orders i xs seen dups valid =
        (dups ++ extra, valid && extra.isEmpty) := by
  intro xs
  induction xs with
  | nil =>
      intro i seen dups valid
      exact ⟨[], by simp [idDupOrdersGo]⟩
  | cons o rest ih =>
      intro i seen dups valid
      cases hfind : idMapFind seen o.id with
      | some k =>
          obtain ⟨extra, heq⟩ := ih (i + 1) seen
            (dups ++ [⟨o.id, (k, i), ((orders.getD k default).name, o.name), "error"⟩]) false
          refine ⟨⟨o.id, (k, i), ((orders.getD k default).name, o.name), "error"⟩ :: extra, ?_⟩
          simp only [idDupOrdersGo, hfind, heq]
          simp
      | none =>
          obtain ⟨extra, heq⟩ := ih (i + 1) (seen ++ [(o.id, i)]) dups valid
          exact ⟨extra, by simp only [idDupOrdersGo, hfind, heq]⟩

/-- The duplicate-id activities loop, same shape. -/
theorem idDupActivitiesGo_char (activities : List FlatActivityJS) :
    ∀ (xs : List FlatActivityJS) (i : Nat) (seen : List (JSValue × Nat))
      (dups : List DupActivityIdInfo) (valid : Bool),
      ∃ extra, idDupActivitiesGo activities i xs seen dups valid =
        (dups ++ extra, valid && extra.isEmpty) := by
  intro xs
  induction xs with
  | nil =>
      intro i seen dups valid
      exact ⟨[], by simp [idDupActivitiesGo]⟩
  | cons a rest ih =>
      intro i seen dups valid
      cases hfind : idMapFind seen a.id with
      | some k =>
          obtain ⟨extra, heq⟩ := ih (i + 1) seen
            (dups ++ [⟨a.id, (k, i), ((activities.getD k default).name, a.name),
              ((activities.getD k default).orderId, a.orderId), "error"⟩]) false
          refine ⟨⟨a.id, (k, i), ((activities.getD k default).name, a.name),
            ((activities.getD k default).orderId, a.orderId), "error"⟩ :: extra, ?_⟩
          simp only [idDupActivitiesGo, hfind, heq]
          simp
      | none =>
          obtain ⟨extra, heq⟩ := ih (i + 1) (seen ++ [(a.id, i)]) dups valid
          exact ⟨extra, by simp only [idDupActivitiesGo, hfind, heq]⟩

/-- analyzeIdDuplicates is valid exactly when both duplicate lists are
empty, and its error list is empty under exactly the same condition. -/
theorem analyzeIdDuplicates_char (orders : List FlatOrderJS)
    (activities : List FlatActivityJS) :
    ((analyzeIdDuplicates orders activities).isValid =
      ((analyzeIdDuplicates orders activities).orderIds.isEmpty &&
       (analyzeIdDuplicates orders activities).activityIds.isEmpty)) ∧
    ((analyzeIdDuplicates orders activities).errors = [] ↔
      ((analyzeIdDuplicates orders activities).orderIds = [] ∧
       (analyzeIdDuplicates orders activities).activityIds = [])) := by
  obtain ⟨extraO, heqO⟩ := idDupOrdersGo_char orders orders 0 [] [] true
  have hop : idDupOrdersGo orders 0 orders [] [] true = (extraO, extraO.isEmpty) := by
    simpa using heqO
  obtain ⟨extraA, heqA⟩ := idDupActivitiesGo_char activities activities 0 [] []
    (idDupOrdersGo orders 0 orders [] [] true).2
  rw [hop] at heqA
  have hap : idDupActivitiesGo activities 0 activities [] [] extraO.isEmpty =
      (extraA, extraO.isEmpty && extraA.isEmpty) := by
    simpa using heqA
  simp only [analyzeIdDuplicates, hop, hap]
  constructor
  · cases extraO <;> cases extraA <;> simp
  · cases extraO <;> cases extraA <;> simp

/-- One step of the relationship loop, projected to orphans and validity. -/
theorem relStep_char (orders : List FlatOrderJS) (i : Nat) (a : FlatActivityJS)
    (st : RelAccum) :
    (relStep (orders.map (fun o => o.id)) i a st).orphanedActivities =
      st.orphanedActivities ++ orphanedSpec orders i [a] ∧
    (relStep (orders.map (fun o => o.id)) i a st).isValid =
      (st.isValid && (orphanedSpec orders i [a]).isEmpty) := by
  by_cases h1 : truthy a.orderId
  · by_cases h2 : (orders.map (fun o => o.id)).any (fun oid => jsEq oid a.orderId)
    · constructor <;> simp [relStep, orphanedSpec, h1, h2]
    · constructor <;> simp [relStep, orphanedSpec, h1, h2]
  · constructor <;> simp [relStep, orphanedSpec, h1]

/-- The relationship loop accumulates exactly the orphans described by
`orphanedSpec` and is valid exactly when there are none. -/
theorem relGo_char (orders : List FlatOrderJS) :
    ∀ (acts : List FlatActivityJS) (i : Nat) (st : RelAccum),
      (relGo (orders.map (fun o => o.id)) i acts st).orphanedActivities =
        st.orphanedActivities ++ orphanedSpec orders i acts ∧
      (relGo (orders.map (fun o => o.id)) i acts st).isValid =
        (st.isValid && (orphanedSpec orders i acts).isEmpty) := by
  intro acts
  induction acts with
  | nil =>
      intro i st
      simp [relGo, orphanedSpec]
  | cons a rest ih =>
      intro i st
      have hstep := relStep_char orders i a st
      have hrec := ih (i + 1) (relStep (orders.map (fun o => o.id)) i a st)
      have hgo : relGo (orders.map (fun o => o.id)) i (a :: rest) st =
          relGo (orders.map (fun o => o.id)) (i + 1) rest
            (relStep (orders.map (fun o => o.id)) i a st) := rfl
      have hspec : orphanedSpec orders i (a :: rest) =
          orphanedSpec orders i [a] ++ orphanedSpec orders (i + 1) rest := by
        simp [orphanedSpec]
      rw [hgo, hspec]
      constructor
      · rw [hrec.1, hstep.1, List.append_assoc]
      · rw [hrec.2, hstep.2, Bool.and_assoc]
        congr 1
        cases orphanedSpec orders i [a] <;> simp

/-- analyzeRelationships: the orphan list is exactly `orphanedSpec`, the
result is valid exactly when that list is empty, and the error list is
empty under the same condition. -/
theorem analyzeRelationships_char (orders : List FlatOrderJS)
    (acts : List FlatActivityJS) :
    (analyzeRelationships orders acts).orphanedActivities = orphanedSpec orders 0 acts ∧
    (analyzeRelationships orders acts).isValid = (orphanedSpec orders 0 acts).isEmpty ∧
    ((analyzeRelationships orders acts).errors = [] ↔ orphanedSpec orders 0 acts = []) := by
  have h := relGo_char orders acts 0
    ⟨[], 0, 0, [], orders.foldl (fun m o => countsSet m o.id 0) [], true⟩
  simp only [analyzeRelationships, h.1, h.2]
  simp only [List.nil_append, Bool.true_and]
  refine ⟨trivial, trivial, ?_⟩
  cases orphanedSpec orders 0 acts <;> simp

/-- C4 counterexample.  An activity whose `orderId` is the empty string is
not recorded in orphanedActivities, produces no error, and leaves both the
relationship result and the aggregated integrity result valid —
contradicting the claim that an empty `orderId` is orphaned, a hard error,
and invalidates the aggregate. -/
theorem c4_orphan_counterexample :
    (analyzeRelationships emptyOrderIdOrders emptyOrderIdActivities).orphanedActivities = [] ∧
    (analyzeRelationships emptyOrderIdOrders emptyOrderIdActivities).errors = [] ∧
    (analyzeRelationships emptyOrderIdOrders emptyOrderIdActivities).isValid = true ∧
    (analyzeRelationships emptyOrderIdOrders emptyOrderIdActivities).invalidRelationships = 1 ∧
    (validateDataIntegrity sampleNowMs emptyOrderIdOrders emptyOrderIdActivities).isValid
      = true := by
  exact ⟨rfl, rfl, rfl, rfl, rfl⟩

/-- C4 amended.  The orphaned activities are exactly those whose `orderId`
is non-empty (truthy) yet strictly-equal to no batch order id — an
empty-`orderId` activity is only counted as an invalid relationship, not
orphaned, and does not invalidate.  Each such activity is recorded exactly
once (in batch order, with its index, id, name and the missing order id),
the relationship result is valid exactly when there are none, and when at
least one exists the aggregated integrity result is invalid. -/
theorem c4_orphan_amended (orders : List FlatOrderJS) (acts : List FlatActivityJS)
    (nowMs : Int) :
    ((analyzeRelationships orders acts).orphanedActivities = orphanedSpec orders 0 acts ∧
     (analyzeRelationships orders acts).isValid = (orphanedSpec orders 0 acts).isEmpty) ∧
    (orphanedSpec orders 0 acts ≠ [] →
      (validateDataIntegrity nowMs orders acts).isValid = false) := by
  have hchar := analyzeRelationships_char orders acts
  refine ⟨⟨hchar.1, hchar.2.1⟩, ?_⟩
  intro hne
  have hrel : (analyzeRelationships orders acts).isValid = false := by
    rw [hchar.2.1]
    cases horph : orphanedSpec orders 0 acts with
    | nil => exact absurd horph hne
    | cons x xs => rfl
  cases hn : analyzeNameDuplicates orders acts with
  | error e =>
      simp only [validateDataIntegrity, hn]
  | ok nr =>
      cases hq : analyzeDataQuality nowMs orders acts with
      | error e =>
          simp only [validateDataIntegrity, hn, hq]
      | ok qw =>
          simp only [validateDataIntegrity, hn, hq, hrel, checkCircularReferences]
          simp

/-- C4 witness: the amended theorem applied to a batch with one activity
referencing a non-existent order id. -/
theorem c4_orphan_amended_witness :
    (validateDataIntegrity sampleNowMs emptyOrderIdOrders
      [⟨.str "a1", .str "B", .str "zzz", .str sampleTime⟩]).isValid = false :=
  (c4_orphan_amended emptyOrderIdOrders
    [⟨.str "a1", .str "B", .str "zzz", .str sampleTime⟩] sampleNowMs).2
    (by intro h; exact List.cons_ne_nil _ _ h)

/-! ## C5: valid batch and the 100 score -/

/-- C5 counterexample.  A batch with two same-named orders (a warning-only
defect), each with one linked activity: it validates with no errors, no
orphans and a fully valid relationship analysis, yet the integrity score is
98, not 100 — the name-duplicate warning costs 2 points.  This contradicts
the claim that every error-free batch without relationship violations
scores 100. -/
theorem c5_score_counterexample :
    (validateDataIntegrity sampleNowMs warnOnlyOrders warnOnlyActivities).errors = [] ∧
    (validateDataIntegrity sampleNowMs warnOnlyOrders warnOnlyActivities).orphanedActivities
      = [] ∧
    (validateDataIntegrity sampleNowMs warnOnlyOrders
      warnOnlyActivities).relationshipAnalysis.isValid = true ∧
    (validateDataIntegrity sampleNowMs warnOnlyOrders warnOnlyActivities).isValid = true ∧
    (validateDataIntegrity sampleNowMs warnOnlyOrders warnOnlyActivities).warnings =
      ["オーダー名「A」が重複しています（インデックス: 0, 1）"] ∧
    (validateDataIntegrity sampleNowMs warnOnlyOrders warnOnlyActivities).integrityScore
      = 98 := by
  exact ⟨rfl, rfl, rfl, rfl, rfl, rfl⟩

/-- C5 amended.  A batch whose integrity result carries no errors and no
warnings is valid and scores exactly 100 (the claim must also exclude
warnings, because the score subtracts 2 per warning even when the batch is
valid). -/
theorem c5_score_amended (nowMs : Int) (orders : List FlatOrderJS)
    (acts : List FlatActivityJS)
    (hE : (validateDataIntegrity nowMs orders acts).errors = [])
    (hW : (validateDataIntegrity nowMs orders acts).warnings = []) :
    (validateDataIntegrity nowMs orders acts).isValid = true ∧
    (validateDataIntegrity nowMs orders acts).integrityScore = 100 := by
  cases hn : analyzeNameDuplicates orders acts with
  | error e =>
      simp only [validateDataIntegrity, hn] at hE
      simp at hE
  | ok nr =>
      cases hq : analyzeDataQuality nowMs orders acts with
      | error e =>
          simp only [validateDataIntegrity, hn, hq] at hE
          simp at hE
      | ok qw =>
          simp only [validateDataIntegrity, hn, hq, checkCircularReferences] at hE hW ⊢
          have idc := analyzeIdDuplicates_char orders acts
          have rc := analyzeRelationships_char orders acts
          have hv1 : (analyzeIdDuplicates orders acts).isValid = true := by
            by_cases hb : (analyzeIdDuplicates orders acts).isValid = true
            · exact hb
            · exfalso
              have hbf : (analyzeIdDuplicates orders acts).isValid = false := by
                cases h2 : (analyzeIdDuplicates orders acts).isValid
                · rfl
                · exact absurd h2 hb
              rw [hbf] at hE
              simp at hE
              obtain ⟨h1, h2⟩ := idc.2.mp hE.1
              rw [idc.1, h1, h2] at hbf
              simp at hbf
          rw [hv1] at hE
          simp at hE
          have hv2 : (analyzeRelationships orders acts).isValid = true := by
            by_cases hb : (analyzeRelationships orders acts).isValid = true
            · exact hb
            · exfalso
              have hbf : (analyzeRelationships orders acts).isValid = false := by
                cases h2 : (analyzeRelationships orders acts).isValid
                · rfl
                · exact absurd h2 hb
              rw [hbf] at hE
              simp at hE
              have hspec := rc.2.2.mp hE
              rw [rc.2.1, hspec] at hbf
              simp at hbf
          have hspecnil : orphanedSpec orders 0 acts = [] := by
            cases hsp : orphanedSpec orders 0 acts with
            | nil => rfl
            | cons x xs =>
                rw [rc.2.1, hsp] at hv2
                simp at hv2
          have horph : (analyzeRelationships orders acts).orphanedActivities = [] := by
            rw [rc.1, hspecnil]
          have h1 := hv1
          rw [idc.1] at h1
          have hO : (analyzeIdDuplicates orders acts).orderIds = [] := by
            cases hx : (analyzeIdDuplicates orders acts).orderIds with
            | nil => rfl
            | cons a l =>
                rw [hx] at h1
                simp at h1
          have hA : (analyzeIdDuplicates orders acts).activityIds = [] := by
            cases hx : (analyzeIdDuplicates orders acts).activityIds with
            | nil => rfl
            | cons a l =>
                rw [hx] at h1
                simp at h1
          constructor
          · rw [hv1, hv2]
            rfl
          · rw [hW, horph, hO, hA]
            simp only [hv1, hv2]
            simp [calculateIntegrityScore]

/-- C5 witness: the amended theorem applied to a defect-free batch (one
order with one activity, distinct names, fresh dates). -/
theorem c5_score_amended_witness :
    (validateDataIntegrity sampleNowMs emptyOrderIdOrders
      [⟨.str "a1", .str "B", .str "o1", .str sampleTime⟩]).isValid = true ∧
    (validateDataIntegrity sampleNowMs emptyOrderIdOrders
      [⟨.str "a1", .str "B", .str "o1", .str sampleTime⟩]).integrityScore = 100 :=
  c5_score_amended sampleNowMs emptyOrderIdOrders
    [⟨.str "a1", .str "B", .str "o1", .str sampleTime⟩] rfl rfl

/-! ## C1: the merge policy and the store -/

/-- updateOrderRepo rewrites the first record whose id matches, leaving a
non-matching prefix untouched. -/
theorem updateOrderRepo_first (oid nm ca : JSValue) :
    ∀ (l1 : List FlatOrderJS) (e : FlatOrderJS) (l2 : List FlatOrderJS),
      (∀ x ∈ l1, jsEq x.id oid = false) → jsEq e.id oid = true →
      updateOrderRepo (l1 ++ e :: l2) oid nm ca =
        l1 ++ { e with name := nm, createdAt := ca } :: l2 := by
  intro l1
  induction l1 with
  | nil =>
      intro e l2 _ he
      simp [updateOrderRepo, he]
  | cons x xs ih =>
      intro e l2 hall he
      have hx : jsEq x.id oid = false := hall x (by simp)
      simp [updateOrderRepo, hx, ih e l2 (fun y hy => hall y (by simp [hy])) he]

/-- updateActivityRepo, same shape. -/
theorem updateActivityRepo_first (aid nm oidv ca : JSValue) :
    ∀ (l1 : List FlatActivityJS) (e : FlatActivityJS) (l2 : List FlatActivityJS),
      (∀ x ∈ l1, jsEq x.id aid = false) → jsEq e.id aid = true →
      updateActivityRepo (l1 ++ e :: l2) aid nm oidv ca =
        l1 ++ { e with name := nm, orderId := oidv, createdAt := ca } :: l2 := by
  intro l1
  induction l1 with
  | nil =>
      intro e l2 _ he
      simp [updateActivityRepo, he]
  | cons x xs ih =>
      intro e l2 hall he
      have hx : jsEq x.id aid = false := hall x (by simp)
      simp [updateActivityRepo, hx, ih e l2 (fun y hy => hall y (by simp [hy])) he]

/-- C1 counterexample.  The store holds `x` (named "N") and `o1` (named
"M"); the batch imports `o1` named "N".  checkDuplicates' first match for
the import is `x` (by name), so the merge branch copies `x`'s fields onto
the store record with id `o1`: after reconciliation under policy "merge"
the store's `o1` is named "N" — its field changed although the claim says
merge leaves every field of the existing store record unchanged — while
updatedOrders is 1. -/
theorem c1_merge_counterexample :
    (executeImport mergeShadowBatch (checkDuplicates mergeShadowStore mergeShadowBatch)
      ⟨some "merge"⟩ mergeShadowStore).1.orders =
      [⟨.str "x", .str "N", .str sampleTime⟩, ⟨.str "o1", .str "N", .str sampleTime⟩] ∧
    (executeImport mergeShadowBatch (checkDuplicates mergeShadowStore mergeShadowBatch)
      ⟨some "merge"⟩ mergeShadowStore).2 =
      ⟨true, 0, 0, 0, 0, 1, 0, []⟩ ∧
    mergeShadowStore.orders =
      [⟨.str "x", .str "N", .str sampleTime⟩, ⟨.str "o1", .str "M", .str sampleTime⟩] := by
  exact ⟨rfl, rfl, rfl⟩

/-- C1 amended.  When the import record's first store match is found by id
(the matched record is the one with the import's id — in particular
whenever no earlier store record shares the import's name), the "merge"
policy leaves the store completely unchanged while counting the record as
updated: a single-record batch yields updatedOrders==1 (resp.
updatedActivities==1), all other counters 0, no errors, and the returned
store equal to the input store. -/
theorem c1_merge_amended :
    (∀ (store : Store) (o : FlatOrderJS) (e : FlatOrderJS),
      store.orders.find? (orderStoreMatch o) = some e →
      jsEq e.id o.id = true →
      executeImport ⟨[o], []⟩ (checkDuplicates store ⟨[o], []⟩) ⟨some "merge"⟩ store =
        (store, ⟨true, 0, 0, 0, 0, 1, 0, []⟩)) ∧
    (∀ (store : Store) (a : FlatActivityJS) (e : FlatActivityJS),
      store.activities.find? (activityStoreMatch a) = some e →
      jsEq e.id a.id = true →
      executeImport ⟨[], [a]⟩ (checkDuplicates store ⟨[], [a]⟩) ⟨some "merge"⟩ store =
        (store, ⟨true, 0, 0, 0, 0, 0, 1, []⟩)) := by
  constructor
  · intro store o e hfind h2
    have hoo : jsEq o.id o.id = true := jsEq_right_refl h2
    obtain ⟨l1, l2, hl, hpe, hl1⟩ := find_eq_some_split (orderStoreMatch o) e store.orders hfind
    have hfails : ∀ x ∈ l1, jsEq x.id o.id = false := by
      intro x hx
      have hfail := hl1 x hx
      unfold orderStoreMatch at hfail
      cases hj : jsEq x.id o.id
      · rfl
      · rw [hj] at hfail
        simp at hfail
    have hrepo : updateOrderRepo store.orders o.id e.name e.createdAt = store.orders := by
      rw [hl, updateOrderRepo_first o.id e.name e.createdAt l1 e l2 hfails h2]
    have hdupO : (checkDuplicates store ⟨[o], []⟩).duplicateOrders =
        [⟨o, e, "id"⟩] := by
      simp [checkDuplicates, hfind, h2]
    have hdupA : (checkDuplicates store ⟨[o], []⟩).duplicateActivities = [] := by
      simp [checkDuplicates]
    have hstep : importOrdersStep [⟨o, e, "id"⟩] "merge" store o =
        ({ store with orders := updateOrderRepo store.orders o.id e.name e.createdAt },
         ⟨0, 0, 1, []⟩) := by
      simp [importOrdersStep, hoo, List.find?]
    have hgo : importOrdersGo [⟨o, e, "id"⟩] "merge" store [o] = (store, ⟨0, 0, 1, []⟩) := by
      simp only [importOrdersGo, hstep, hrepo]
      simp [SubResult.append]
    simp only [executeImport, hdupO, hdupA]
    simp [importActivitiesGo, SubResult.append, effectivePolicy, hgo]
  · intro store a e hfind h2
    have hoo : jsEq a.id a.id = true := jsEq_right_refl h2
    obtain ⟨l1, l2, hl, hpe, hl1⟩ :=
      find_eq_some_split (activityStoreMatch a) e store.activities hfind
    have hfails : ∀ x ∈ l1, jsEq x.id a.id = false := by
      intro x hx
      have hfail := hl1 x hx
      unfold activityStoreMatch at hfail
      cases hj : jsEq x.id a.id
      · rfl
      · rw [hj] at hfail
        simp at hfail
    have hrepo : updateActivityRepo store.activities a.id e.name e.orderId e.createdAt =
        store.activities := by
      rw [hl, updateActivityRepo_first a.id e.name e.orderId e.createdAt l1 e l2 hfails h2]
    have hdupO : (checkDuplicates store ⟨[], [a]⟩).duplicateOrders = [] := by
      simp [checkDuplicates]
    have hdupA : (checkDuplicates store ⟨[], [a]⟩).duplicateActivities =
        [⟨a, e, "id"⟩] := by
      simp [checkDuplicates, hfind, h2]
    have hstep : importActivitiesStep [⟨a, e, "id"⟩] "merge" store a =
        ({ store with activities :=
            updateActivityRepo store.activities a.id e.name e.orderId e.createdAt },
         ⟨0, 0, 1, []⟩) := by
      simp [importActivitiesStep, hoo, List.find?]
    have hgo : importActivitiesGo [⟨a, e, "id"⟩] "merge" store [a] =
        (store, ⟨0, 0, 1, []⟩) := by
      simp only [importActivitiesGo, hstep, hrepo]
      simp [SubResult.append]
    simp only [executeImport, hdupO, hdupA]
    simp only [importOrdersGo]
    simp only [effectivePolicy]
    simp [hgo, SubResult.append]

/-- C1 witness: merging the single order `o1` (and, separately, the single
activity `a1`) into a store already containing it by id leaves the store
unchanged and counts one update. -/
theorem c1_merge_amended_witness :
    executeImport ⟨[plainImportOrder], []⟩
      (checkDuplicates mergePlainStore ⟨[plainImportOrder], []⟩)
      ⟨some "merge"⟩ mergePlainStore =
      (mergePlainStore, ⟨true, 0, 0, 0, 0, 1, 0, []⟩) ∧
    executeImport ⟨[], [plainImportActivity]⟩
      (checkDuplicates mergeActStore ⟨[], [plainImportActivity]⟩)
      ⟨some "merge"⟩ mergeActStore =
      (mergeActStore, ⟨true, 0, 0, 0, 0, 0, 1, []⟩) :=
  ⟨c1_merge_amended.1 mergePlainStore plainImportOrder
      ⟨.str "o1", .str "M", .str sampleTime⟩ rfl rfl,
   c1_merge_amended.2 mergeActStore plainImportActivity
      ⟨.str "a1", .str "B", .str "o1", .str sampleTime⟩ rfl rfl⟩

/-! ## C7: partial failure does not abort; success iff no errors -/

/-- C7.  (a) The outcome's success flag is true exactly when its error list
is empty.  (b)/(c) The order and activity loops decompose over list
concatenation: processing a batch containing a failing record still
processes everything before and after it, accumulating counts and errors in
order (no abort).  (d) A non-colliding record whose creation fails
contributes exactly one per-record error, no count, and leaves the store
unchanged. -/
theorem c7_partial_failure :
    (∀ (data : FlatDoc) (dc : DupCheck) (opts : ImportOptions) (store : Store),
      ((executeImport data dc opts store).2.success = true ↔
       (executeImport data dc opts store).2.errors = [])) ∧
    (∀ (dups : List DupOrder) (pol : String) (store : Store) (xs ys : List FlatOrderJS),
      importOrdersGo dups pol store (xs ++ ys) =
        ((importOrdersGo dups pol (importOrdersGo dups pol store xs).1 ys).1,
         (importOrdersGo dups pol store xs).2.append
           (importOrdersGo dups pol (importOrdersGo dups pol store xs).1 ys).2)) ∧
    (∀ (dups : List DupActivity) (pol : String) (store : Store)
        (xs ys : List FlatActivityJS),
      importActivitiesGo dups pol store (xs ++ ys) =
        ((importActivitiesGo dups pol (importActivitiesGo dups pol store xs).1 ys).1,
         (importActivitiesGo dups pol store xs).2.append
           (importActivitiesGo dups pol (importActivitiesGo dups pol store xs).1 ys).2)) ∧
    (∀ (dups : List DupOrder) (pol : String) (store : Store) (o : FlatOrderJS),
      dups.any (fun dup => jsEq dup.imp.id o.id) = false →
      (createOrderForImport store o).1 = false →
      importOrdersStep dups pol store o =
        (store, ⟨0, 0, 0,
          ["オーダー「" ++ jsDisplay o.name ++ "」の作成に失敗しました"]⟩)) := by
  refine ⟨?_, ?_, ?_, ?_⟩
  · intro data dc opts store
    have hse : (executeImport data dc opts store).2.success =
        (executeImport data dc opts store).2.errors.isEmpty := rfl
    rw [hse]
    cases h : (executeImport data dc opts store).2.errors <;> simp [h]
  · intro dups pol store xs ys
    induction xs generalizing store with
    | nil =>
        simp [importOrdersGo, subResult_nil_append]
    | cons x xs ih =>
        simp only [List.cons_append, importOrdersGo]
        simp only [List.append_eq]
        rw [ih]
        simp [subResult_append_assoc]
  · intro dups pol store xs ys
    induction xs generalizing store with
    | nil =>
        simp [importActivitiesGo, subResult_nil_append]
    | cons x xs ih =>
        simp only [List.cons_append, importActivitiesGo]
        simp only [List.append_eq]
        rw [ih]
        simp [subResult_append_assoc]
  · intro dups pol store o hnd hcf
    obtain ⟨so, sa⟩ := store
    have hmut := createOrderForImport_fail_no_mutation ⟨so, sa⟩ o hcf
    simp [importOrdersStep, hnd, hcf, hmut]

/-- C7 witness: part (d) applied to an import order with an empty name
against the concrete store; its creation fails with one error and no
mutation. -/
theorem c7_partial_failure_witness :
    importOrdersStep [] "skip" mergePlainStore failingImportOrder =
      (mergePlainStore, ⟨0, 0, 0, ["オーダー「」の作成に失敗しました"]⟩) :=
  c7_partial_failure.2.2.2 [] "skip" mergePlainStore failingImportOrder rfl rfl

/-! ## C10: unknown policies behave as skip -/

/-- An unknown policy takes the same branch as "skip" for one order. -/
theorem importOrdersStep_policy (dups : List DupOrder) (pol : String) (store : Store)
    (o : FlatOrderJS) (h1 : pol ≠ "overwrite") (h2 : pol ≠ "merge") :
    importOrdersStep dups pol store o = importOrdersStep dups "skip" store o := by
  have hb1 : (pol == "overwrite") = false := by simp [h1]
  have hb2 : (pol == "merge") = false := by simp [h2]
  unfold importOrdersStep
  rw [hb1, hb2]
  rfl

/-- An unknown policy takes the same branch as "skip" for one activity. -/
theorem importActivitiesStep_policy (dups : List DupActivity) (pol : String)
    (store : Store) (a : FlatActivityJS) (h1 : pol ≠ "overwrite") (h2 : pol ≠ "merge") :
    importActivitiesStep dups pol store a = importActivitiesStep dups "skip" store a := by
  have hb1 : (pol == "overwrite") = false := by simp [h1]
  have hb2 : (pol == "merge") = false := by simp [h2]
  unfold importActivitiesStep
  rw [hb1, hb2]
  rfl

/-- Lifting to the order loop. -/
theorem importOrdersGo_policy (dups : List DupOrder) (pol : String)
    (h1 : pol ≠ "overwrite") (h2 : pol ≠ "merge") :
    ∀ (xs : List FlatOrderJS) (store : Store),
      importOrdersGo dups pol store xs = importOrdersGo dups "skip" store xs := by
  intro xs
  induction xs with
  | nil => intro store; rfl
  | cons x rest ih =>
      intro store
      simp only [importOrdersGo]
      rw [importOrdersStep_policy dups pol store x h1 h2, ih]

/-- Lifting to the activity loop. -/
theorem importActivitiesGo_policy (dups : List DupActivity) (pol : String)
    (h1 : pol ≠ "overwrite") (h2 : pol ≠ "merge") :
    ∀ (xs : List FlatActivityJS) (store : Store),
      importActivitiesGo dups pol store xs = importActivitiesGo dups "skip" store xs := by
  intro xs
  induction xs with
  | nil => intro store; rfl
  | cons x rest ih =>
      intro store
      simp only [importActivitiesGo]
      rw [importActivitiesStep_policy dups pol store x h1 h2, ih]

/-- C10.  Any duplicateHandling value other than "overwrite" and "merge" —
including an absent option (and the falsy empty string) — makes
reconciliation behave exactly as policy "skip"; under "skip" a colliding
record is counted as skipped with no store mutation. -/
theorem c10_unknown_policy_skip :
    (∀ (pol : String), pol ≠ "overwrite" → pol ≠ "merge" →
      ∀ (data : FlatDoc) (dc : DupCheck) (store : Store),
        executeImport data dc ⟨some pol⟩ store = executeImport data dc ⟨some "skip"⟩ store) ∧
    (∀ (data : FlatDoc) (dc : DupCheck) (store : Store),
      executeImport data dc ⟨none⟩ store = executeImport data dc ⟨some "skip"⟩ store) ∧
    (∀ (dups : List DupOrder) (store : Store) (o : FlatOrderJS),
      dups.any (fun dup => jsEq dup.imp.id o.id) = true →
      importOrdersStep dups "skip" store o = (store, ⟨0, 1, 0, []⟩)) ∧
    (∀ (dups : List DupActivity) (store : Store) (a : FlatActivityJS),
      dups.any (fun dup => jsEq dup.imp.id a.id) = true →
      importActivitiesStep dups "skip" store a = (store, ⟨0, 1, 0, []⟩)) := by
  refine ⟨?_, ?_, ?_, ?_⟩
  · intro pol h1 h2 data dc store
    by_cases hpol : pol = ""
    · subst hpol
      rfl
    · have hep : effectivePolicy ⟨some pol⟩ = pol := by
        simp [effectivePolicy, hpol]
      simp only [executeImport, hep]
      rw [importOrdersGo_policy dc.duplicateOrders pol h1 h2,
          importActivitiesGo_policy dc.duplicateActivities pol h1 h2]
      rfl
  · intro data dc store
    rfl
  · intro dups store o h
    simp [importOrdersStep, h]
  · intro dups store a h
    simp [importActivitiesStep, h]

/-- C10 witness: the policy "replace" (unknown) behaves as "skip" on the
concrete colliding import, and the skip step counts the collision as
skipped without mutating the store. -/
theorem c10_unknown_policy_skip_witness :
    executeImport ⟨[plainImportOrder], []⟩
      (checkDuplicates mergePlainStore ⟨[plainImportOrder], []⟩)
      ⟨some "replace"⟩ mergePlainStore =
      executeImport ⟨[plainImportOrder], []⟩
        (checkDuplicates mergePlainStore ⟨[plainImportOrder], []⟩)
        ⟨some "skip"⟩ mergePlainStore ∧
    importOrdersStep [⟨plainImportOrder, ⟨.str "o1", .str "M", .str sampleTime⟩, "id"⟩]
      "skip" mergePlainStore plainImportOrder = (mergePlainStore, ⟨0, 1, 0, []⟩) :=
  ⟨c10_unknown_policy_skip.1 "replace" (by decide) (by decide)
      ⟨[plainImportOrder], []⟩ (checkDuplicates mergePlainStore ⟨[plainImportOrder], []⟩)
      mergePlainStore,
   c10_unknown_policy_skip.2.2.1
      [⟨plainImportOrder, ⟨.str "o1", .str "M", .str sampleTime⟩, "id"⟩]
      mergePlainStore plainImportOrder rfl⟩

/-- Flattening the encoded embedded activities of a canonical nested order
reproduces them verbatim (with the given parent id) when every field is
non-empty, regardless of the starting activity index. -/
theorem flattenActivities_enc (now : String) (index : Nat) (pid : JSValue) :
    ∀ (acts : List NestedActT) (j : Nat),
      (∀ a ∈ acts, a.id ≠ "" ∧ a.name ≠ "" ∧ a.createdAt ≠ "") →
      flattenActivities now index pid j (acts.map encNestedActT) =
        acts.map (fun a => ⟨.str a.id, .str a.name, pid, .str a.createdAt⟩) := by
  intro acts
  induction acts with
  | nil => intro j _; rfl
  | cons a rest ih =>
      intro j h
      obtain ⟨hid, hname, hcat⟩ := h a (List.mem_cons_self a rest)
      have hobj : isObjectLike (encNestedActT a) = true := rfl
      have hfa : flatActivityOf now index j pid (encNestedActT a) =
          ⟨.str a.id, .str a.name, pid, .str a.createdAt⟩ := by
        have h1 : getProp (encNestedActT a) "id" = .str a.id := rfl
        have h2 : getProp (encNestedActT a) "name" = .str a.name := rfl
        have h3 : getProp (encNestedActT a) "createdAt" = .str a.createdAt := rfl
        simp [flatActivityOf, h1, h2, h3, truthy, hid, hname, hcat]
      simp only [List.map_cons, flattenActivities, hobj, if_true, hfa,
        ih (j + 1) (fun b hb => h b (List.mem_cons_of_mem a hb))]

/-- Flattening the encoded orders of a canonical nested document, from any
starting index: the flat orders carry the original fields verbatim and in
order, and the flat activities are exactly the concatenated per-order
blocks. -/
theorem flattenOrdersGo_enc (now : String) :
    ∀ (os : List NestedOrderT) (i : Nat),
      (∀ o ∈ os, o.id ≠ "" ∧ o.name ≠ "" ∧ o.createdAt ≠ "") →
      (∀ o ∈ os, ∀ a ∈ o.activities, a.id ≠ "" ∧ a.name ≠ "" ∧ a.createdAt ≠ "") →
      flattenOrdersGo now i (os.map encNestedOrderT) =
        (os.map (fun o => ⟨.str o.id, .str o.name, .str o.createdAt⟩), actBlocks os) := by
  intro os
  induction os with
  | nil => intro i _ _; rfl
  | cons o rest ih =>
      intro i ho ha
      obtain ⟨hid, hname, hcat⟩ := ho o (List.mem_cons_self o rest)
      have hobj : isObjectLike (encNestedOrderT o) = true := rfl
      have hfo : flatOrderOf now i (encNestedOrderT o) =
          ⟨.str o.id, .str o.name, .str o.createdAt⟩ := by
        have h1 : getProp (encNestedOrderT o) "id" = .str o.id := rfl
        have h2 : getProp (encNestedOrderT o) "name" = .str o.name := rfl
        have h3 : getProp (encNestedOrderT o) "createdAt" = .str o.createdAt := rfl
        simp [flatOrderOf, h1, h2, h3, truthy, hid, hname, hcat]
      have hacts : getProp (encNestedOrderT o) "activities" =
          .arr (o.activities.map encNestedActT) := rfl
      have htail := ih (i + 1) (fun b hb => ho b (List.mem_cons_of_mem o hb))
        (fun b hb => ha b (List.mem_cons_of_mem o hb))
      have hfl := flattenActivities_enc now i (JSValue.str o.id) o.activities 0
        (fun a haa => ha o (List.mem_cons_self o rest) a haa)
      simp only [List.map_cons, flattenOrdersGo, hobj, if_true, hacts, hfo, htail, hfl,
        actBlocks, actBlock]

/-- Filtering a single per-order activity block by some order id keeps
everything or nothing, depending on whether that id is the block's parent. -/
theorem actBlock_filter (oid2 : String) :
    ∀ (pid : String) (l : List NestedActT),
      (l.map (fun a =>
          (⟨.str a.id, .str a.name, .str pid, .str a.createdAt⟩ : FlatActivityJS))).filter
          (fun a => jsEq a.orderId (.str oid2)) =
        if pid = oid2 then
          l.map (fun a => ⟨.str a.id, .str a.name, .str pid, .str a.createdAt⟩)
        else [] := by
  intro pid l
  induction l with
  | nil => simp
  | cons a rest ih =>
      simp only [List.map_cons, List.filter_cons]
      have hpred : jsEq
          (⟨.str a.id, .str a.name, .str pid, .str a.createdAt⟩ : FlatActivityJS).orderId
          (.str oid2) = (pid == oid2) := rfl
      rw [hpred, ih]
      by_cases h : pid = oid2
      · simp [h]
      · simp [h]

/-- Filtering the concatenated blocks by an id that is no block's parent id
yields nothing. -/
theorem actBlocks_filter_none (oid2 : String) :
    ∀ (os : List NestedOrderT), (∀ o ∈ os, o.id ≠ oid2) →
      (actBlocks os).filter (fun a => jsEq a.orderId (.str oid2)) = [] := by
  intro os
  induction os with
  | nil => intro _; rfl
  | cons x rest ih =>
      intro h
      simp only [actBlocks, actBlock, List.filter_append]
      rw [actBlock_filter oid2 x.id x.activities,
        if_neg (h x (List.mem_cons_self x rest)),
        ih (fun b hb => h b (List.mem_cons_of_mem x hb))]
      rfl

/-- With batch-unique parent ids, filtering the concatenated blocks by a
member order's id recovers exactly that order's block. -/
theorem actBlocks_filter_mem :
    ∀ (os : List NestedOrderT), (os.map (fun o => o.id)).Nodup →
      ∀ o ∈ os, (actBlocks os).filter (fun a => jsEq a.orderId (.str o.id)) =
        o.activities.map (fun a => ⟨.str a.id, .str a.name, .str o.id, .str a.createdAt⟩) := by
  intro os
  induction os with
  | nil => intro _ o ho; cases ho
  | cons x rest ih =>
      intro hnd o ho
      rw [List.map_cons, List.nodup_cons] at hnd
      obtain ⟨hx, hrest⟩ := hnd
      simp only [actBlocks, actBlock, List.filter_append]
      rcases List.mem_cons.mp ho with rfl | hmem
      · have hnone : ∀ b ∈ rest, b.id ≠ o.id := by
          intro b hb hbid
          exact hx (List.mem_map.mpr ⟨b, hb, hbid⟩)
        rw [actBlock_filter o.id o.id o.activities, if_pos rfl,
          actBlocks_filter_none o.id rest hnone, List.append_nil]
      · have hxo : ¬ (x.id = o.id) := by
          intro hcontra
          exact hx (hcontra ▸ List.mem_map.mpr ⟨o, hmem, rfl⟩)
        rw [actBlock_filter o.id x.id x.activities, if_neg hxo, List.nil_append]
        exact ih hrest o hmem

/-- C9: for every canonical nested-form document whose order and activity
fields are non-empty strings (so the normalizer synthesizes nothing) and
whose order ids are batch-unique (the spec's uniqueness invariant),
normalizing to the flat form with convertNestedToFlat and re-nesting with
convertFlatToNested reconstructs the document: each order reappears with
its original id, name and createdAt, and its rebuilt activity list is
exactly the list of activities embedded under that order in the input. -/
theorem c9_roundtrip (now : String) (os : List NestedOrderT)
    (horders : ∀ o ∈ os, o.id ≠ "" ∧ o.name ≠ "" ∧ o.createdAt ≠ "")
    (hnd : (os.map (fun o => o.id)).Nodup)
    (hacts : ∀ o ∈ os, ∀ a ∈ o.activities, a.id ≠ "" ∧ a.name ≠ "" ∧ a.createdAt ≠ "") :
    convertFlatToNested (convertNestedToFlat now (encNestedDoc os)) =
      os.map (fun o =>
        ⟨.str o.id, .str o.name, .str o.createdAt,
         o.activities.map (fun a => ⟨.str a.id, .str a.name, .str a.createdAt⟩)⟩) := by
  have hdoc : getProp (encNestedDoc os) "orders" = .arr (os.map encNestedOrderT) := rfl
  have henc := flattenOrdersGo_enc now os 0 horders hacts
  have hflat : convertNestedToFlat now (encNestedDoc os) =
      ⟨os.map (fun o => ⟨.str o.id, .str o.name, .str o.createdAt⟩), actBlocks os⟩ := by
    simp only [convertNestedToFlat, hdoc, henc]
  rw [hflat]
  unfold convertFlatToNested
  dsimp only
  rw [List.map_map]
  apply List.map_congr_left
  intro o ho
  simp only [Function.comp_apply]
  rw [actBlocks_filter_mem os hnd o ho, List.map_map]
  rfl

/-- C9 witness: the roundtrip theorem at the concrete two-order nested
sample (its field-non-emptiness and id-uniqueness hypotheses are decided
on the concrete data). -/
theorem c9_roundtrip_witness :
    convertFlatToNested (convertNestedToFlat sampleTime (encNestedDoc nestedSample)) =
      nestedSample.map (fun o =>
        ⟨.str o.id, .str o.name, .str o.createdAt,
         o.activities.map (fun a => ⟨.str a.id, .str a.name, .str a.createdAt⟩)⟩) :=
  c9_roundtrip sampleTime nestedSample (by decide) (by decide) (by decide)
